import Mathlib

/-!
Verification development for the UNET / ResNet module-composition code in
`UNETPyTorch/V2/ModelModules.py`.

The Python code is configuration glue over a tensor framework: constructors
assemble lists of convolution / batch-norm / pooling / transposed-convolution
modules, and `forward` wires tensors through them.  The shallow embedding
mirrors this:

* every call to a layer-factory function (`conv_function`, `bn_function`,
  `mp_function`, `conv_trans_func`) is recorded as a small record holding the
  arguments the Python code passes, including the optional leading `dims`
  argument used when `dims > 3`;
* `forward` methods build symbolic tensor terms (`Tensor`), so wiring facts
  (skip connections, attention placement, time conditioning) are statements
  about the shape of the returned term;
* Python `assert` statements and index errors become `Except.error` results;
* the `Attention`, `AttentionArgs` and `DiffPosEmbeds` classes live in
  `EmbedAttnUtils.py`, which is imported by the source file; only the fields
  that `ModelModules.py` itself reads and writes (`enc_channels`,
  `skip_channels`, `spatial_inter_channels`) are modelled, and applying an
  attention module is an opaque `Tensor` constructor;
* Python lists that are mutated in place (`channel_sequence` in
  `ResNet.create_resnet_layer`, the attention-argument dict / dataclass) are
  threaded explicitly: functions return the updated value next to their
  result.

A `channels` function gives the single piece of framework semantics needed by
the shape claim: how the channel dimension moves through convolutions,
batch-norm, pooling, concatenation, and (numpy-style) broadcast addition.
-/

/-- The fields of the `AttentionArgs` dataclass that `ModelModules.py` reads
and writes (`enc_channels`, `skip_channels`, `spatial_inter_channels`). -/
structure AttentionArgs where
  encChannels : Nat
  skipChannels : Nat
  spatialInterChannels : Nat
deriving DecidableEq, Repr, Inhabited

/-- The `attention_args` parameters of the Python constructors accept a
`dict`, an `AttentionArgs` dataclass, or anything else (treated as absent;
`None` in practice).  The three `isinstance` branches are modelled by three
constructors. -/
inductive AttnArgs where
  | null : AttnArgs
  | dict (a : AttentionArgs) : AttnArgs
  | dcls (a : AttentionArgs) : AttnArgs
deriving DecidableEq, Repr, Inhabited

/-- `Attention(**args)` / `Attention(**asdict(args))` constructs a module from
the current argument values; anything that is neither a dict nor a dataclass
yields no module (`self.attention = None`). -/
def attnOf : AttnArgs → Option AttentionArgs
  | AttnArgs.null => none
  | AttnArgs.dict a => some a
  | AttnArgs.dcls a => some a

/-- Whether the arguments are neither a dict nor a dataclass (the `else`
branch of the `isinstance` chains). -/
def AttnArgs.isNull : AttnArgs → Bool
  | AttnArgs.null => true
  | AttnArgs.dict _ => false
  | AttnArgs.dcls _ => false

/-- The in-place field assignment performed on an attention dict/dataclass:
`args['enc_channels'] = enc; args['skip_channels'] = skip;`
`args['spatial_inter_channels'] = inter` (and the attribute version for the
dataclass).  On anything else the Python code assigns nothing. -/
def setAttnFields : AttnArgs → Nat → Nat → Nat → AttnArgs
  | AttnArgs.null, _, _, _ => AttnArgs.null
  | AttnArgs.dict a, enc, skip, inter =>
      AttnArgs.dict { a with encChannels := enc, skipChannels := skip, spatialInterChannels := inter }
  | AttnArgs.dcls a, enc, skip, inter =>
      AttnArgs.dcls { a with encChannels := enc, skipChannels := skip, spatialInterChannels := inter }

/-- One call to `conv_function` / `conv_trans_func`-style factories: the
optional leading `dims` argument (present exactly when the constructor runs
its `dims > 3` branch) and the positional/keyword arguments passed. -/
structure ConvCall where
  dimsArg : Option Nat
  inCh : Nat
  outCh : Nat
  kernel : Nat
  padding : Nat
  stride : Nat
deriving DecidableEq, Repr, Inhabited

/-- One call to `bn_function`. -/
structure BnCall where
  dimsArg : Option Nat
  features : Nat
deriving DecidableEq, Repr, Inhabited

/-- One call to `mp_function` (`kernel_size=2, stride=2`). -/
structure PoolCall where
  dimsArg : Option Nat
  kernel : Nat
  stride : Nat
deriving DecidableEq, Repr, Inhabited

/-- One call to `conv_trans_func` (`kernel_size=2, stride=2`, no padding). -/
structure TransCall where
  dimsArg : Option Nat
  inCh : Nat
  outCh : Nat
  kernel : Nat
  stride : Nat
deriving DecidableEq, Repr, Inhabited

/-- One entry of `ConvSet.conv_list`: `nn.Sequential(conv, bn, act)`, where
`act` is a deep copy of `act_function` when supplied (identified by a tag) and
a fresh `nn.ReLU` otherwise (`none`). -/
structure ConvBlock where
  conv : ConvCall
  bn : BnCall
  act : Option Nat
deriving DecidableEq, Repr, Inhabited

/-- The `nn.Sequential(nn.Linear(time_embed_count, channel_sequence[2]),
nn.ReLU())` embedding adjuster. -/
structure LinearMod where
  inFeatures : Nat
  outFeatures : Nat
deriving DecidableEq, Repr, Inhabited

/-- The residual-matching branch `nn.Sequential(conv, bn)`. -/
structure ResMatch where
  conv : ConvCall
  bn : BnCall
deriving DecidableEq, Repr, Inhabited

/-- The sinusoidal time-embedding pipeline
`nn.Sequential(DiffPosEmbeds(count, theta=10000), nn.Linear(count, count),
nn.ReLU(inplace=True))`. -/
structure TimeEmbedsMod where
  count : Nat
  theta : Nat
deriving DecidableEq, Repr, Inhabited

/-- Symbolic tensors: the terms built by the `forward` methods.  `input c` is
an input tensor whose channel dimension is `c`; the remaining constructors
record one framework operation each, keeping the module data that the Python
code applies. -/
inductive Tensor where
  | input (channels : Nat) : Tensor
  | convBlockApp (blk : ConvBlock) (t : Tensor) : Tensor
  | addTime (ea : LinearMod) (timeEmbed : Tensor) (t : Tensor) : Tensor
  | attnSelf (a : AttentionArgs) (t : Tensor) : Tensor
  | attnGate (a : AttentionArgs) (cur : Tensor) (skip : Tensor) : Tensor
  | reluAdd (t : Tensor) (r : Tensor) : Tensor
  | resMatchApp (rm : ResMatch) (t : Tensor) : Tensor
  | pool (p : PoolCall) (t : Tensor) : Tensor
  | upscale (tc : TransCall) (bn : BnCall) (dropout : Option Rat) (t : Tensor) : Tensor
  | cat (a : Tensor) (b : Tensor) : Tensor
  | timeEmbeds (tm : TimeEmbedsMod) (t : Tensor) : Tensor
  | applyModule (tag : Nat) (t : Tensor) : Tensor
deriving DecidableEq, Repr

instance : Inhabited Tensor := ⟨Tensor.input 0⟩

/-- `in_layer` / `out_layer` parameters: `none` means the default
`nn.Identity()`, `some tag` an arbitrary user module. -/
def applyOptModule : Option Nat → Tensor → Tensor
  | none, t => t
  | some tag, t => Tensor.applyModule tag t

/-- Whether a symbolic tensor term contains an attention application. -/
def Tensor.usesAttn : Tensor → Bool
  | Tensor.input _ => false
  | Tensor.convBlockApp _ t => t.usesAttn
  | Tensor.addTime _ te t => te.usesAttn || t.usesAttn
  | Tensor.attnSelf _ _ => true
  | Tensor.attnGate _ _ _ => true
  | Tensor.reluAdd t r => t.usesAttn || r.usesAttn
  | Tensor.resMatchApp _ t => t.usesAttn
  | Tensor.pool _ t => t.usesAttn
  | Tensor.upscale _ _ _ t => t.usesAttn
  | Tensor.cat a b => a.usesAttn || b.usesAttn
  | Tensor.timeEmbeds _ t => t.usesAttn
  | Tensor.applyModule _ t => t.usesAttn

def optUsesAttn : Option Tensor → Bool
  | none => false
  | some t => Tensor.usesAttn t

/-- Numpy / PyTorch broadcasting on the channel dimension: sizes must be
equal or one of them `1`; the result is the non-`1` size. -/
def broadcastAdd (a b : Nat) : Option Nat :=
  if a = b then some a
  else if a = 1 then some b
  else if b = 1 then some a
  else none

/-- Channel flow through one `nn.Sequential(conv, bn, act)` block: the input
must match the convolution's `in_channels`, batch-norm must have been built
with the convolution's `out_channels`. -/
def blockOutChannels (blk : ConvBlock) (ch : Nat) : Option Nat :=
  if ch = blk.conv.inCh ∧ blk.bn.features = blk.conv.outCh then some blk.conv.outCh else none

/-- The channel dimension of a symbolic tensor, `none` when some operation in
the term is ill-typed on channels (a framework runtime error). -/
def Tensor.channels : Tensor → Option Nat
  | Tensor.input c => some c
  | Tensor.convBlockApp blk t => (Tensor.channels t).bind (blockOutChannels blk)
  | Tensor.addTime ea te t =>
      if Tensor.channels te = some ea.inFeatures then
        (Tensor.channels t).bind (fun c => broadcastAdd c ea.outFeatures)
      else none
  | Tensor.attnSelf _ t => Tensor.channels t
  | Tensor.attnGate _ _ skip => Tensor.channels skip
  | Tensor.reluAdd t r =>
      match Tensor.channels t, Tensor.channels r with
      | some a, some b => broadcastAdd a b
      | _, _ => none
  | Tensor.resMatchApp rm t =>
      (Tensor.channels t).bind
        (fun c => if c = rm.conv.inCh ∧ rm.bn.features = rm.conv.outCh then some rm.conv.outCh else none)
  | Tensor.pool _ t => Tensor.channels t
  | Tensor.upscale tc bn _ t =>
      (Tensor.channels t).bind
        (fun c => if c = tc.inCh ∧ bn.features = tc.outCh then some tc.outCh else none)
  | Tensor.cat a b =>
      match Tensor.channels a, Tensor.channels b with
      | some x, some y => some (x + y)
      | _, _ => none
  | Tensor.timeEmbeds tm _ => some tm.count
  | Tensor.applyModule _ _ => none

/-- The `ConvSet` module after construction. -/
structure ConvSet where
  dimensions : Nat
  convList : List ConvBlock
  needTime : Bool
  embedAdjuster : Option LinearMod
  attention : Option AttentionArgs
  needRes : Bool
  resMatch : Option ResMatch
deriving DecidableEq, Repr, Inhabited

/-- The dimension-specific construction of one convolution block inside the
`for i in range(len(channel_sequence) - 1)` loop of `ConvSet.__init__`. -/
def mkConvBlock (dims inCh outCh kernel padding stride : Nat) (act : Option Nat) : ConvBlock :=
  if dims ≤ 3 then
    { conv := { dimsArg := none, inCh := inCh, outCh := outCh, kernel := kernel,
                padding := padding, stride := stride },
      bn := { dimsArg := none, features := outCh }, act := act }
  else
    { conv := { dimsArg := some dims, inCh := inCh, outCh := outCh, kernel := kernel,
                padding := padding, stride := stride },
      bn := { dimsArg := some dims, features := outCh }, act := act }

/-- The body of `ConvSet.__init__` after its four assertions have passed. -/
def ConvSet.build (channelSequence kernelSequence paddingSequence : List Nat) (dims stride : Nat)
    (useTime : Bool) (timeEmbedCount : Nat) (attentionArgs : AttnArgs) (useResidual : Bool)
    (actFunction : Option Nat) : ConvSet :=
  { dimensions := dims
    convList := (List.range (channelSequence.length - 1)).map (fun i =>
      mkConvBlock dims (channelSequence.getD i 0) (channelSequence.getD (i + 1) 0)
        (kernelSequence.getD i 0) (paddingSequence.getD i 0)
        (if i = 1 then stride else 1) actFunction)
    needTime := useTime
    embedAdjuster :=
      if useTime then some { inFeatures := timeEmbedCount, outFeatures := channelSequence.getD 2 0 }
      else none
    attention := attnOf attentionArgs
    needRes := useResidual
    resMatch :=
      if useResidual then
        some (if dims ≤ 3 then
          { conv := { dimsArg := none, inCh := channelSequence.getD 0 0,
                      outCh := channelSequence.getD (channelSequence.length - 1) 0,
                      kernel := 1, padding := 0, stride := stride },
            bn := { dimsArg := none, features := channelSequence.getD (channelSequence.length - 1) 0 } }
        else
          { conv := { dimsArg := some dims, inCh := channelSequence.getD 0 0,
                      outCh := channelSequence.getD (channelSequence.length - 1) 0,
                      kernel := 1, padding := 0, stride := stride },
            bn := { dimsArg := some dims, features := channelSequence.getD (channelSequence.length - 1) 0 } })
      else none }

/-- `ConvSet.__init__`: the four assertions, then the module assembly. -/
def ConvSet.init (channelSequence kernelSequence paddingSequence : List Nat) (dims stride : Nat)
    (useTime : Bool) (timeEmbedCount : Nat) (attentionArgs : AttnArgs) (useResidual : Bool)
    (actFunction : Option Nat) : Except String ConvSet :=
  if 3 ≤ channelSequence.length then
    if 2 ≤ kernelSequence.length then
      if 2 ≤ paddingSequence.length then
        if kernelSequence.length = paddingSequence.length ∧
            paddingSequence.length = channelSequence.length - 1 then
          Except.ok (ConvSet.build channelSequence kernelSequence paddingSequence dims stride
            useTime timeEmbedCount attentionArgs useResidual actFunction)
        else Except.error "AssertionError: Kernels and padding must be the same length."
      else Except.error "AssertionError: Sequence of padding must be at least two for a proper ConvSet."
    else Except.error "AssertionError: Sequence of kernels must be at least two for a proper ConvSet."
  else Except.error "AssertionError: Sequence of channels must be at least three for a proper ConvSet."

/-- The first part of `ConvSet.forward`: `conv_list[0]`, the optional time
conditioning (with its assertion), then the remaining blocks of
`conv_list`. -/
def ConvSet.convChain (c : ConvSet) (batch : Tensor) (timeEmbed : Option Tensor) :
    Except String Tensor :=
  (match c.convList.head? with
   | some blk => Except.ok (Tensor.convBlockApp blk batch)
   | none => Except.error "IndexError: list index out of range") >>= fun first =>
  (if c.needTime then
    match timeEmbed with
    | none => Except.error "AssertionError: Time embedding is not provided for convolution steps."
    | some te =>
      match c.embedAdjuster with
      | some ea => Except.ok (Tensor.addTime ea te first)
      | none => Except.error "TypeError: embed_adjuster is None"
   else Except.ok first) >>= fun convBatch =>
  Except.ok (c.convList.tail.foldl (fun acc blk => Tensor.convBlockApp blk acc) convBatch)

/-- `ConvSet.forward`: the convolution chain, then the optional attention
block, then the optional residual branch. -/
def ConvSet.forward (c : ConvSet) (batch : Tensor) (timeEmbed : Option Tensor) :
    Except String Tensor :=
  c.convChain batch timeEmbed >>= fun convBatch0 =>
  let convBatch :=
    match c.attention with
    | some a => Tensor.attnSelf a convBatch0
    | none => convBatch0
  match c.needRes, c.resMatch with
  | true, some rm => Except.ok (Tensor.reluAdd convBatch (Tensor.resMatchApp rm batch))
  | true, none => Except.error "TypeError: res_match is None"
  | false, _ => Except.ok convBatch

/-- All `dims` arguments recorded by the factory calls a `ConvSet` made. -/
def ConvSet.dimsArgs (c : ConvSet) : List (Option Nat) :=
  c.convList.map (fun blk => blk.conv.dimsArg) ++ c.convList.map (fun blk => blk.bn.dimsArg) ++
  (match c.resMatch with
   | some rm => [rm.conv.dimsArg, rm.bn.dimsArg]
   | none => [])

/-- The `DownSample` module: a `ConvSet` plus a pooling layer. -/
structure DownSample where
  conv : ConvSet
  pool : PoolCall
deriving DecidableEq, Repr, Inhabited

/-- `DownSample.__init__`: builds the `ConvSet` (stride left at its default
`1`), then the dimension-specific `mp_function(kernel_size=2, stride=2)`. -/
def DownSample.init (channelSequence kernelSequence paddingSequence : List Nat) (dims : Nat)
    (convActFn : Option Nat) (convTime : Bool) (convTimeEmbedCount : Nat)
    (convAttnArgs : AttnArgs) (convResidual : Bool) : Except String DownSample :=
  (ConvSet.init channelSequence kernelSequence paddingSequence dims 1 convTime convTimeEmbedCount
      convAttnArgs convResidual convActFn).map
    (fun conv =>
      { conv := conv
        pool := if dims ≤ 3 then { dimsArg := none, kernel := 2, stride := 2 }
                else { dimsArg := some dims, kernel := 2, stride := 2 } })

/-- `DownSample.forward`: returns the pair
`(convolution output, pooled output)`; the first component (computed before
pooling) is what `UNET.forward` stores as the skip connection. -/
def DownSample.forward (d : DownSample) (batch : Tensor) (timeEmbed : Option Tensor) :
    Except String (Tensor × Tensor) :=
  (d.conv.forward batch timeEmbed).map
    (fun convBatch => (convBatch, Tensor.pool d.pool convBatch))

/-- All `dims` arguments recorded by the factory calls a `DownSample` made. -/
def DownSample.dimsArgs (d : DownSample) : List (Option Nat) :=
  d.conv.dimsArgs ++ [d.pool.dimsArg]

/-- The `UpSample` module: optional gate attention, the upscaler
(`ConvTranspose`, batch-norm, ReLU, optional dropout), and a `ConvSet`. -/
structure UpSample where
  attention : Option AttentionArgs
  transConv : TransCall
  bnCall : BnCall
  dropout : Option Rat
  conv : ConvSet
deriving DecidableEq, Repr, Inhabited

/-- `UpSample.__init__`.  `channel_sequence[0]` raises `IndexError` on an
empty list before anything else can be built. -/
def UpSample.init (channelSequence kernelSequence paddingSequence : List Nat) (dims : Nat)
    (upDropPerc : Rat) (attentionArgs : AttnArgs) (convActFn : Option Nat) (convTime : Bool)
    (convTimeEmbedCount : Nat) (convAttnArgs : AttnArgs) (convResidual : Bool) :
    Except String UpSample :=
  if channelSequence.isEmpty then Except.error "IndexError: list index out of range"
  else
    (ConvSet.init channelSequence kernelSequence paddingSequence dims 1 convTime
        convTimeEmbedCount convAttnArgs convResidual convActFn).map
      (fun conv =>
        { attention := attnOf attentionArgs
          transConv :=
            if dims ≤ 3 then
              { dimsArg := none, inCh := channelSequence.getD 0 0,
                outCh := channelSequence.getD (channelSequence.length - 1) 0,
                kernel := 2, stride := 2 }
            else
              { dimsArg := some dims, inCh := channelSequence.getD 0 0,
                outCh := channelSequence.getD (channelSequence.length - 1) 0,
                kernel := 2, stride := 2 }
          bnCall :=
            if dims ≤ 3 then
              { dimsArg := none, features := channelSequence.getD (channelSequence.length - 1) 0 }
            else
              { dimsArg := some dims, features := channelSequence.getD (channelSequence.length - 1) 0 }
          dropout := if 0 < upDropPerc then some upDropPerc else none
          conv := conv })

/-- `UpSample.forward`: attention (when present) is applied to the skip
connection first, then the current tensor is upscaled, concatenated with the
(possibly attended) skip, and passed through the `ConvSet`. -/
def UpSample.forward (u : UpSample) (cur skip : Tensor) (timeEmbed : Option Tensor) :
    Except String Tensor :=
  let skipUsed :=
    match u.attention with
    | some a => Tensor.attnGate a cur skip
    | none => skip
  u.conv.forward (Tensor.cat (Tensor.upscale u.transConv u.bnCall u.dropout cur) skipUsed) timeEmbed

/-- All `dims` arguments recorded by the factory calls an `UpSample` made. -/
def UpSample.dimsArgs (u : UpSample) : List (Option Nat) :=
  [u.transConv.dimsArg, u.bnCall.dimsArg] ++ u.conv.dimsArgs

/-- `if self.need_denoise: time_embed = self.time_embeds(time_step)` with
failure modes of the Python code (`time_embeds` attribute absent, or
`time_step=None` fed into the embedding pipeline). -/
def getTimeEmbed : Bool → Option TimeEmbedsMod → Option Tensor → Except String (Option Tensor)
  | false, _, _ => Except.ok none
  | true, none, _ => Except.error "AttributeError: time_embeds"
  | true, some _, none => Except.error "TypeError: time_step is None"
  | true, some tm, some ts => Except.ok (some (Tensor.timeEmbeds tm ts))

/-- The `UNET` module. -/
structure UNET where
  dataDimensions : Nat
  inLayer : Option Nat
  needDenoise : Bool
  timeEmbeds : Option TimeEmbedsMod
  downSamplers : List DownSample
  bottleNeck : ConvSet
  bottleNeckAttn : Option AttentionArgs
  upSamplers : List UpSample
  outLayer : Option Nat
deriving DecidableEq, Repr, Inhabited

/-- `UNET.create_downsampler`: mutates `conv_attn_args` in place (a no-op for
anything that is not a dict / dataclass) and builds a `DownSample` with the
fixed `(3, 3)` kernels and `(1, 1)` paddings.  The mutated arguments are
returned next to the module. -/
def UNET.createDownsampler (dataDims : Nat) (needDenoise : Bool) (denoiseEmbedCount : Nat)
    (convActFn : Option Nat) (convResidual : Bool) (curSeq : List Nat) (convAttnArgs : AttnArgs) :
    Except String (DownSample × AttnArgs) :=
  let last := curSeq.getD (curSeq.length - 1) 0
  let convAttnArgs1 := setAttnFields convAttnArgs last last (last / 2)
  (DownSample.init curSeq [3, 3] [1, 1] dataDims convActFn needDenoise denoiseEmbedCount
      convAttnArgs1 convResidual).map (fun ds => (ds, convAttnArgs1))

/-- `UNET.create_upsampler`: gate-attention arguments are mutated and used
only when `cur_index > 1`; conv-attention arguments are always mutated. -/
def UNET.createUpsampler (dataDims : Nat) (needDenoise : Bool) (denoiseEmbedCount : Nat)
    (upDropPerc : Rat) (convActFn : Option Nat) (convResidual : Bool) (curSeq : List Nat)
    (curIndex : Nat) (upAttnArgs convAttnArgs : AttnArgs) :
    Except String (UpSample × AttnArgs × AttnArgs) :=
  let s0 := curSeq.getD 0 0
  let sLast := curSeq.getD (curSeq.length - 1) 0
  let upAttnArgs1 := if 1 < curIndex then setAttnFields upAttnArgs s0 sLast sLast else upAttnArgs
  let curUpAttn := if 1 < curIndex then upAttnArgs1 else AttnArgs.null
  let convAttnArgs1 := setAttnFields convAttnArgs sLast sLast (sLast / 2)
  (UpSample.init curSeq [3, 3] [1, 1] dataDims upDropPerc curUpAttn convActFn needDenoise
      denoiseEmbedCount convAttnArgs1 convResidual).map
    (fun us => (us, upAttnArgs1, convAttnArgs1))

/-- The `for i in range(len(channel_list) - 1)` down-sampler loop, threading
the in-place mutation of `conv_attn_args` across iterations. -/
def UNET.buildDowns (dataDims : Nat) (needDenoise : Bool) (denoiseEmbedCount : Nat)
    (convActFn : Option Nat) (convResidual : Bool) :
    List (List Nat) → AttnArgs → Except String (List DownSample × AttnArgs)
  | [], ca => Except.ok ([], ca)
  | seq :: rest, ca =>
    UNET.createDownsampler dataDims needDenoise denoiseEmbedCount convActFn convResidual seq ca
      >>= fun p =>
    UNET.buildDowns dataDims needDenoise denoiseEmbedCount convActFn convResidual rest p.2
      >>= fun q =>
    Except.ok (p.1 :: q.1, q.2)

/-- The `for i in range(len(channel_list) - 1, 0, -1)` up-sampler loop,
threading both mutated attention-argument objects. -/
def UNET.buildUps (dataDims : Nat) (needDenoise : Bool) (denoiseEmbedCount : Nat)
    (upDropPerc : Rat) (convActFn : Option Nat) (convResidual : Bool) (channelList : List Nat) :
    List Nat → AttnArgs → AttnArgs → Except String (List UpSample × AttnArgs × AttnArgs)
  | [], ua, ca => Except.ok ([], ua, ca)
  | i :: rest, ua, ca =>
    UNET.createUpsampler dataDims needDenoise denoiseEmbedCount upDropPerc convActFn convResidual
        [channelList.getD i 0, channelList.getD (i - 1) 0, channelList.getD (i - 1) 0] i ua ca
      >>= fun p =>
    UNET.buildUps dataDims needDenoise denoiseEmbedCount upDropPerc convActFn convResidual
        channelList rest p.2.1 p.2.2
      >>= fun q =>
    Except.ok (p.1 :: q.1, q.2)

/-- `UNET.__init__`.  `channel_list[-2]` in the bottleneck raises
`IndexError` when the channel list is shorter than two entries. -/
def UNET.init (inChannels : Nat) (channelList : List Nat) (inLayer outLayer : Option Nat)
    (dataDims : Nat) (denoiseDiff : Bool) (denoiseEmbedCount : Nat) (upDropPerc : Rat)
    (upAttnArgs convAttnArgs : AttnArgs) (convActFn : Option Nat) (convResidual : Bool) :
    Except String UNET :=
  let downSpecs := (List.range (channelList.length - 1)).map (fun i =>
    [if i = 0 then inChannels else channelList.getD (i - 1) 0,
     channelList.getD i 0, channelList.getD i 0])
  UNET.buildDowns dataDims denoiseDiff denoiseEmbedCount convActFn convResidual downSpecs
      convAttnArgs >>= fun downsP =>
  if 2 ≤ channelList.length then
    let clPen := channelList.getD (channelList.length - 2) 0
    let clLast := channelList.getD (channelList.length - 1) 0
    ConvSet.init [clPen, clLast, clLast] [3, 3] [1, 1] dataDims 1 denoiseDiff denoiseEmbedCount
        AttnArgs.null convResidual convActFn >>= fun bneck =>
    let upAttn1 := setAttnFields upAttnArgs clLast clLast (clLast / 2)
    let upIdx := (List.range (channelList.length - 1)).map (fun k => channelList.length - 1 - k)
    UNET.buildUps dataDims denoiseDiff denoiseEmbedCount upDropPerc convActFn convResidual
        channelList upIdx upAttn1 downsP.2 >>= fun upsP =>
    Except.ok
      { dataDimensions := dataDims
        inLayer := inLayer
        needDenoise := denoiseDiff
        timeEmbeds :=
          if denoiseDiff then some { count := denoiseEmbedCount, theta := 10000 } else none
        downSamplers := downsP.1
        bottleNeck := bneck
        bottleNeckAttn := attnOf upAttn1
        upSamplers := upsP.1
        outLayer := outLayer }
  else Except.error "IndexError: list index out of range"

/-- The encoder loop of `UNET.forward`: appends each pre-pooling convolution
output to the skip list and feeds the pooled output onward. -/
def runDown : List DownSample → Tensor → Option Tensor → Except String (List Tensor × Tensor)
  | [], cur, _ => Except.ok ([], cur)
  | ds :: rest, cur, te =>
    ds.forward cur te >>= fun p =>
    runDown rest p.2 te >>= fun q =>
    Except.ok (p.1 :: q.1, q.2)

/-- The decoder loop of `UNET.forward`: each stage pops the most recent skip
(`skip_connections.pop()`).  Returns the skips consumed in application order,
the skips left over, and the final tensor. -/
def runUp : List UpSample → List Tensor → Tensor → Option Tensor →
    Except String (List Tensor × List Tensor × Tensor)
  | [], skips, cur, _ => Except.ok ([], skips, cur)
  | us :: rest, skips, cur, te =>
    match skips.getLast? with
    | none => Except.error "IndexError: pop from empty list"
    | some skip =>
      us.forward cur skip te >>= fun cur1 =>
      runUp rest skips.dropLast cur1 te >>= fun q =>
      Except.ok (skip :: q.1, q.2)

/-- `UNET.forward`. -/
def UNET.forward (u : UNET) (batch : Tensor) (timeStep : Option Tensor) : Except String Tensor :=
  let curDown := applyOptModule u.inLayer batch
  getTimeEmbed u.needDenoise u.timeEmbeds timeStep >>= fun timeEmbed =>
  runDown u.downSamplers curDown timeEmbed >>= fun downP =>
  u.bottleNeck.forward downP.2 timeEmbed >>= fun bneckOut =>
  let curUp :=
    match u.bottleNeckAttn with
    | some a => Tensor.attnSelf a bneckOut
    | none => bneckOut
  runUp u.upSamplers downP.1 curUp timeEmbed >>= fun upP =>
  Except.ok (applyOptModule u.outLayer upP.2.2)

/-- The `ResNet` module. -/
structure ResNet where
  dataDimensions : Nat
  inLayer : Option Nat
  outLayer : Option Nat
  needDenoise : Bool
  timeEmbeds : Option TimeEmbedsMod
  resNetLayers : List (List ConvSet)
deriving DecidableEq, Repr, Inhabited

/-- `ResNet.create_resnet_layer`: mutates `self.conv_attn_args`, builds the
first `ConvSet` with the given stride, then assigns
`channel_sequence[0] = channel_sequence[-1]` IN PLACE on the caller's list and
builds the remaining `set_count - 1` `ConvSet`s from the mutated list.
Returns the layer, the mutated channel list, and the mutated attention
arguments. -/
def ResNet.createResnetLayer (dataDims : Nat) (needDenoise : Bool) (denoiseEmbedCount : Nat)
    (convActFn : Option Nat) (convResidual : Bool) (channelSequence kernelSequence paddingSequence : List Nat)
    (setCount stride : Nat) (convAttnArgs : AttnArgs) :
    Except String (List ConvSet × List Nat × AttnArgs) :=
  let last := channelSequence.getD (channelSequence.length - 1) 0
  let ca1 := setAttnFields convAttnArgs last last (last / 2)
  ConvSet.init channelSequence kernelSequence paddingSequence dataDims stride needDenoise
      denoiseEmbedCount ca1 convResidual convActFn >>= fun first =>
  let channelSequence1 := channelSequence.set 0 last
  (List.range (setCount - 1)).mapM (fun _ =>
      ConvSet.init channelSequence1 kernelSequence paddingSequence dataDims 1 needDenoise
        denoiseEmbedCount ca1 convResidual convActFn) >>= fun rest =>
  Except.ok (first :: rest, channelSequence1, ca1)

/-- The layer loop of `ResNet.__init__`: `zip` over the four lists (stopping
at the shortest, as `zip` does), stride `1` for the first layer and `2`
afterwards, threading the mutated attention arguments and collecting the
mutated per-layer channel lists. -/
def ResNet.buildLayers (dataDims : Nat) (needDenoise : Bool) (denoiseEmbedCount : Nat)
    (convActFn : Option Nat) (convResidual : Bool) :
    List (List Nat) → List (List Nat) → List (List Nat) → List Nat → Bool → AttnArgs →
    Except String (List (List ConvSet) × List (List Nat) × AttnArgs)
  | ch :: chs, ks :: kss, ps :: pss, sc :: scs, firstLayerMade, ca =>
    ResNet.createResnetLayer dataDims needDenoise denoiseEmbedCount convActFn convResidual
        ch ks ps sc (if firstLayerMade then 2 else 1) ca >>= fun p =>
    ResNet.buildLayers dataDims needDenoise denoiseEmbedCount convActFn convResidual
        chs kss pss scs true p.2.2 >>= fun q =>
    Except.ok (p.1 :: q.1, p.2.1 :: q.2.1, q.2.2)
  | _, _, _, _, _, ca => Except.ok ([], [], ca)

/-- `ResNet.__init__`: the length assertion, then the layer loop.  The second
component of the result is the caller's `layer_channels_list` after the
in-place mutations performed during construction. -/
def ResNet.init (layerChannelsList layerKernelsList layerPaddingsList : List (List Nat))
    (layerSetList : List Nat) (inLayer outLayer : Option Nat) (dataDims : Nat)
    (denoiseDiff : Bool) (denoiseEmbedCount : Nat) (convActFn : Option Nat)
    (convAttnArgs : AttnArgs) (convResidual : Bool) :
    Except String (ResNet × List (List Nat)) :=
  if layerChannelsList.length = layerKernelsList.length ∧
      layerKernelsList.length = layerPaddingsList.length ∧
      layerPaddingsList.length = layerSetList.length then
    ResNet.buildLayers dataDims denoiseDiff denoiseEmbedCount convActFn convResidual
        layerChannelsList layerKernelsList layerPaddingsList layerSetList false convAttnArgs
      >>= fun p =>
    Except.ok
      ({ dataDimensions := dataDims
         inLayer := inLayer
         outLayer := outLayer
         needDenoise := denoiseDiff
         timeEmbeds :=
           if denoiseDiff then some { count := denoiseEmbedCount, theta := 10000 } else none
         resNetLayers := p.1 }, p.2.1)
  else Except.error "AssertionError: All ResNet lists must be the same length."

/-- `ResNet.forward`. -/
def ResNet.forward (r : ResNet) (batch : Tensor) (timeStep : Option Tensor) :
    Except String Tensor :=
  let batchIn := applyOptModule r.inLayer batch
  getTimeEmbed r.needDenoise r.timeEmbeds timeStep >>= fun timeEmbed =>
  r.resNetLayers.foldlM
      (fun acc sec => sec.foldlM (fun b cset => cset.forward b timeEmbed) acc) batchIn
    >>= fun batchRes =>
  Except.ok (applyOptModule r.outLayer batchRes)

/-! ## Concrete example modules

Small concrete instantiations of the constructors, used to exercise the
theorems below on closed inputs. -/

def exConvTime : ConvSet :=
  (ConvSet.init [1, 2, 3] [3, 3] [1, 1] 2 1 true 4 AttnArgs.null false none).toOption.getD default

def exConvPlain : ConvSet :=
  (ConvSet.init [1, 2, 3] [3, 5] [1, 2] 2 1 false 0 AttnArgs.null false none).toOption.getD default

def exConvRes : ConvSet :=
  (ConvSet.init [1, 2, 3] [3, 3] [1, 1] 2 3 false 0 AttnArgs.null true none).toOption.getD default

def exConvAttn : ConvSet :=
  (ConvSet.init [1, 2, 3] [3, 3] [1, 1] 2 1 false 0
    (AttnArgs.dict { encChannels := 5, skipChannels := 6, spatialInterChannels := 7 })
    false none).toOption.getD default

def exConvDims5 : ConvSet :=
  (ConvSet.init [1, 2, 3] [3, 3] [1, 1] 5 1 false 0 AttnArgs.null true none).toOption.getD default

def exDown : DownSample :=
  (DownSample.init [1, 2, 3] [3, 3] [1, 1] 2 none false 0 AttnArgs.null false).toOption.getD default

def exUp : UpSample :=
  (UpSample.init [4, 2, 2] [3, 3] [1, 1] 7 (3 / 10 : Rat)
    (AttnArgs.dcls { encChannels := 1, skipChannels := 1, spatialInterChannels := 1 })
    none false 0 AttnArgs.null false).toOption.getD default

def exUpNull : UpSample :=
  (UpSample.init [4, 2, 2] [3, 3] [1, 1] 2 0 AttnArgs.null none false 0 AttnArgs.null
    false).toOption.getD default

def exUNET : UNET :=
  (UNET.init 1 [2, 3] none none 2 false 0 0 AttnArgs.null AttnArgs.null none
    false).toOption.getD default

def exUNETAttn : UNET :=
  (UNET.init 3 [4, 8, 16] none none 2 false 0 0
    (AttnArgs.dict { encChannels := 0, skipChannels := 0, spatialInterChannels := 0 })
    AttnArgs.null none false).toOption.getD default

def exResNetP : ResNet × List (List Nat) :=
  (ResNet.init [[1, 2, 3]] [[3, 3]] [[1, 1]] [2] none none 2 false 0 none AttnArgs.null
    false).toOption.getD default

def exC8Conv : ConvSet :=
  (ConvSet.init [1, 2, 1] [3, 3] [1, 1] 2 1 true 4 AttnArgs.null false none).toOption.getD default

def exC8Out : Tensor :=
  (exC8Conv.forward (Tensor.input 1) (some (Tensor.input 4))).toOption.getD default

def exResMatch : ResMatch :=
  { conv := { dimsArg := none, inCh := 1, outCh := 3, kernel := 1, padding := 0, stride := 3 }
    bn := { dimsArg := none, features := 3 } }

def exPlainOut : Tensor :=
  (exConvPlain.forward (Tensor.input 1) none).toOption.getD default

def exAttnOut : Tensor :=
  (exConvAttn.forward (Tensor.input 1) none).toOption.getD default

/-! ## Helper lemmas -/

theorem exceptBind_ok {ε α β : Type} {x : Except ε α} {f : α → Except ε β} {b : β} :
    (x >>= f) = Except.ok b ↔ ∃ a, x = Except.ok a ∧ f a = Except.ok b := by
  cases x <;> simp [Bind.bind, Except.bind]

theorem exceptMap_ok {ε α β : Type} {g : α → β} {x : Except ε α} {b : β} :
    x.map g = Except.ok b ↔ ∃ a, x = Except.ok a ∧ g a = b := by
  cases x <;> simp [Except.map]

theorem ConvSet.init_ok_iff {cs ks ps : List Nat} {dims stride : Nat} {ut : Bool} {tec : Nat}
    {aa : AttnArgs} {ur : Bool} {caf : Option Nat} {c : ConvSet} :
    ConvSet.init cs ks ps dims stride ut tec aa ur caf = Except.ok c ↔
      (3 ≤ cs.length ∧ 2 ≤ ks.length ∧ 2 ≤ ps.length ∧ ks.length = ps.length ∧
       ps.length = cs.length - 1 ∧
       c = ConvSet.build cs ks ps dims stride ut tec aa ur caf) := by
  unfold ConvSet.init
  split_ifs with h1 h2 h3 h4
  · simp only [Except.ok.injEq]
    constructor
    · intro h
      exact ⟨h1, h2, h3, h4.1, h4.2, h.symm⟩
    · intro h
      exact h.2.2.2.2.2.symm
  · constructor
    · intro h
      cases h
    · intro h
      exact absurd ⟨h.2.2.2.1, h.2.2.2.2.1⟩ h4
  · constructor
    · intro h
      cases h
    · intro h
      exact absurd h.2.2.1 h3
  · constructor
    · intro h
      cases h
    · intro h
      exact absurd h.2.1 h2
  · constructor
    · intro h
      cases h
    · intro h
      exact absurd h.1 h1

theorem mkConvBlock_conv (dims inCh outCh kernel padding stride : Nat) (act : Option Nat) :
    (mkConvBlock dims inCh outCh kernel padding stride act).conv =
      { dimsArg := if dims ≤ 3 then none else some dims, inCh := inCh, outCh := outCh,
        kernel := kernel, padding := padding, stride := stride } := by
  unfold mkConvBlock
  split_ifs with h <;> simp [h]

theorem mkConvBlock_bn (dims inCh outCh kernel padding stride : Nat) (act : Option Nat) :
    (mkConvBlock dims inCh outCh kernel padding stride act).bn =
      { dimsArg := if dims ≤ 3 then none else some dims, features := outCh } := by
  unfold mkConvBlock
  split_ifs with h <;> simp [h]

theorem mkConvBlock_conv_inCh (dims inCh outCh kernel padding stride : Nat) (act : Option Nat) :
    (mkConvBlock dims inCh outCh kernel padding stride act).conv.inCh = inCh := by
  unfold mkConvBlock
  split <;> rfl

theorem mkConvBlock_conv_outCh (dims inCh outCh kernel padding stride : Nat) (act : Option Nat) :
    (mkConvBlock dims inCh outCh kernel padding stride act).conv.outCh = outCh := by
  unfold mkConvBlock
  split <;> rfl

theorem mkConvBlock_bn_features (dims inCh outCh kernel padding stride : Nat) (act : Option Nat) :
    (mkConvBlock dims inCh outCh kernel padding stride act).bn.features = outCh := by
  unfold mkConvBlock
  split <;> rfl

theorem getD_map_range {α : Type} (f : Nat → α) (n k : Nat) (d : α) (h : k < n) :
    ((List.range n).map f).getD k d = f k := by
  rw [List.getD_eq_getElem _ d (by simpa using h), List.getElem_map, List.getElem_range]

/-- The convolution blocks built by `ConvSet.build`. -/
theorem ConvSet.build_convList (cs ks ps : List Nat) (dims stride : Nat) (ut : Bool) (tec : Nat)
    (aa : AttnArgs) (ur : Bool) (caf : Option Nat) :
    (ConvSet.build cs ks ps dims stride ut tec aa ur caf).convList =
      (List.range (cs.length - 1)).map (fun i =>
        mkConvBlock dims (cs.getD i 0) (cs.getD (i + 1) 0) (ks.getD i 0) (ps.getD i 0)
          (if i = 1 then stride else 1) caf) := rfl

theorem foldl_convBlockApp_usesAttn (blocks : List ConvBlock) :
    ∀ t : Tensor,
      (blocks.foldl (fun acc blk => Tensor.convBlockApp blk acc) t).usesAttn = t.usesAttn := by
  induction blocks with
  | nil => intro t; rfl
  | cons b rest ih =>
    intro t
    simpa [List.foldl_cons] using ih (Tensor.convBlockApp b t)

theorem foldl_convBlockApp_channels (blocks : List ConvBlock) :
    ∀ t : Tensor,
      (blocks.foldl (fun acc blk => Tensor.convBlockApp blk acc) t).channels =
        blocks.foldl (fun o blk => o.bind (blockOutChannels blk)) t.channels := by
  induction blocks with
  | nil => intro t; rfl
  | cons b rest ih =>
    intro t
    simpa [List.foldl_cons, Tensor.channels] using ih (Tensor.convBlockApp b t)

theorem foldl_bind_ne_none (blocks : List ConvBlock) :
    ∀ o : Option Nat,
      blocks.foldl (fun o blk => o.bind (blockOutChannels blk)) o ≠ none → o ≠ none := by
  induction blocks with
  | nil =>
    intro o h
    exact h
  | cons b rest ih =>
    intro o h
    have h2 : o.bind (blockOutChannels b) ≠ none := ih _ (by simpa [List.foldl_cons] using h)
    intro ho
    rw [ho] at h2
    exact h2 rfl

theorem attnOf_setAttnFields (a : AttnArgs) (enc skip inter : Nat) :
    attnOf (setAttnFields a enc skip inter) =
      if a.isNull then none
      else some { encChannels := enc, skipChannels := skip, spatialInterChannels := inter } := by
  cases a <;> rfl

theorem isNull_setAttnFields (a : AttnArgs) (enc skip inter : Nat) :
    (setAttnFields a enc skip inter).isNull = a.isNull := by
  cases a <;> rfl

theorem attnOf_isSome (a : AttnArgs) : (attnOf a).isSome = ! a.isNull := by
  cases a <;> rfl

theorem attnOf_null_iff (a : AttnArgs) : attnOf a = none ↔ a.isNull = true := by
  cases a <;> simp [attnOf, AttnArgs.isNull]

/-- `runDown` produces one skip connection per down sampler. -/
theorem runDown_length :
    ∀ (downs : List DownSample) (cur : Tensor) (te : Option Tensor) (skips : List Tensor)
      (bottom : Tensor),
      runDown downs cur te = Except.ok (skips, bottom) → skips.length = downs.length := by
  intro downs
  induction downs with
  | nil =>
    intro cur te skips bottom h
    simp only [runDown, Except.ok.injEq, Prod.mk.injEq] at h
    rw [← h.1]
    rfl
  | cons ds rest ih =>
    intro cur te skips bottom h
    simp only [runDown, exceptBind_ok] at h
    obtain ⟨p, _, q, hq, hok⟩ := h
    simp only [Except.ok.injEq, Prod.mk.injEq] at hok
    have hlen := ih p.2 te q.1 q.2 (by rw [hq])
    rw [← hok.1]
    simpa using hlen

/-- `runUp` with as many skips as stages pops every skip exactly once, in
last-in-first-out order: the consumed trace is the reverse of the skip list
and nothing is left over. -/
theorem runUp_spec :
    ∀ (ups : List UpSample) (skips : List Tensor) (cur : Tensor) (te : Option Tensor)
      (tr lo : List Tensor) (out : Tensor),
      skips.length = ups.length →
      runUp ups skips cur te = Except.ok (tr, lo, out) →
      lo = [] ∧ tr = skips.reverse := by
  intro ups
  induction ups with
  | nil =>
    intro skips cur te tr lo out hlen h
    have hnil : skips = [] := List.eq_nil_of_length_eq_zero hlen
    subst hnil
    simp only [runUp, Except.ok.injEq, Prod.mk.injEq] at h
    exact ⟨h.2.1.symm, h.1.symm⟩
  | cons us rest ih =>
    intro skips cur te tr lo out hlen h
    have hne : skips ≠ [] := by
      intro hnil
      rw [hnil] at hlen
      simp at hlen
    rw [runUp, List.getLast?_eq_getLast skips hne] at h
    simp only [exceptBind_ok] at h
    obtain ⟨cur1, _, q, hq, hok⟩ := h
    simp only [Except.ok.injEq, Prod.mk.injEq] at hok
    have hdll : skips.dropLast.length = rest.length := by
      rw [List.length_dropLast, hlen]
      rfl
    have hrec := ih skips.dropLast cur1 te q.1 q.2.1 q.2.2 hdll (by rw [hq])
    have hlo : q.2.1 = lo := congrArg Prod.fst hok.2
    constructor
    · rw [← hlo]
      exact hrec.1
    · rw [← hok.1, hrec.2]
      have hsplit := List.dropLast_append_getLast hne
      calc skips.getLast hne :: skips.dropLast.reverse
          = (skips.dropLast ++ [skips.getLast hne]).reverse := by
            rw [List.reverse_append]
            rfl
        _ = skips.reverse := by rw [hsplit]

theorem reverse_getD {α : Type} (l : List α) (i : Nat) (d : α) (h : i < l.length) :
    l.reverse.getD i d = l.getD (l.length - 1 - i) d := by
  rw [List.getD_eq_getElem _ d (by simpa using h),
      List.getD_eq_getElem _ d (by omega)]
  exact List.getElem_reverse ..

theorem except_ok_bind {ε α β : Type} (a : α) (f : α → Except ε β) :
    (Except.ok a >>= f : Except ε β) = f a := rfl

/-- `ConvSet.__init__` succeeds on any three-channel sequence with the fixed
`(3, 3)` kernels and `(1, 1)` paddings used throughout `UNET`. -/
theorem ConvSet.init_len3 (a b c : Nat) (dims stride : Nat) (ut : Bool) (tec : Nat)
    (aa : AttnArgs) (ur : Bool) (caf : Option Nat) :
    ConvSet.init [a, b, c] [3, 3] [1, 1] dims stride ut tec aa ur caf =
      Except.ok (ConvSet.build [a, b, c] [3, 3] [1, 1] dims stride ut tec aa ur caf) :=
  ConvSet.init_ok_iff.mpr ⟨by simp, by simp, by simp, by simp, by simp, rfl⟩

theorem UNET.createDownsampler_eq (dd : Nat) (nd : Bool) (dec : Nat) (caf : Option Nat) (cr : Bool)
    (a b c : Nat) (ca : AttnArgs) :
    UNET.createDownsampler dd nd dec caf cr [a, b, c] ca =
      Except.ok
        ({ conv := ConvSet.build [a, b, c] [3, 3] [1, 1] dd 1 nd dec
             (setAttnFields ca c c (c / 2)) cr caf
           pool := if dd ≤ 3 then { dimsArg := none, kernel := 2, stride := 2 }
                   else { dimsArg := some dd, kernel := 2, stride := 2 } },
         setAttnFields ca c c (c / 2)) := by
  unfold UNET.createDownsampler DownSample.init
  simp [ConvSet.init_len3, Except.map]

theorem UNET.buildDowns_ok (dd : Nat) (nd : Bool) (dec : Nat) (caf : Option Nat) (cr : Bool) :
    ∀ (specs : List (List Nat)) (ca : AttnArgs),
      (∀ s ∈ specs, ∃ a b c, s = [a, b, c]) →
      ∃ downs ca1,
        UNET.buildDowns dd nd dec caf cr specs ca = Except.ok (downs, ca1) ∧
        downs.length = specs.length := by
  intro specs
  induction specs with
  | nil =>
    intro ca _
    exact ⟨[], ca, rfl, rfl⟩
  | cons s rest ih =>
    intro ca hshape
    obtain ⟨a, b, c, hs⟩ := hshape s (by simp)
    subst hs
    obtain ⟨downs, ca1, hrec, hlen⟩ :=
      ih (setAttnFields ca c c (c / 2)) (fun t ht => hshape t (by simp [ht]))
    have hstep : UNET.buildDowns dd nd dec caf cr ([a, b, c] :: rest) ca =
        Except.ok
          ({ conv := ConvSet.build [a, b, c] [3, 3] [1, 1] dd 1 nd dec
               (setAttnFields ca c c (c / 2)) cr caf
             pool := if dd ≤ 3 then { dimsArg := none, kernel := 2, stride := 2 }
                     else { dimsArg := some dd, kernel := 2, stride := 2 } } :: downs, ca1) := by
      simp only [UNET.buildDowns, UNET.createDownsampler_eq, except_ok_bind, hrec]
    exact ⟨_, _, hstep, by simp [hlen]⟩

theorem UNET.createUpsampler_eq (dd : Nat) (nd : Bool) (dec : Nat) (udp : Rat) (caf : Option Nat)
    (cr : Bool) (a b c : Nat) (i : Nat) (ua ca : AttnArgs) :
    UNET.createUpsampler dd nd dec udp caf cr [a, b, c] i ua ca =
      Except.ok
        ({ attention := attnOf (if 1 < i then setAttnFields ua a c c else AttnArgs.null)
           transConv :=
             if dd ≤ 3 then { dimsArg := none, inCh := a, outCh := c, kernel := 2, stride := 2 }
             else { dimsArg := some dd, inCh := a, outCh := c, kernel := 2, stride := 2 }
           bnCall :=
             if dd ≤ 3 then { dimsArg := none, features := c }
             else { dimsArg := some dd, features := c }
           dropout := if 0 < udp then some udp else none
           conv := ConvSet.build [a, b, c] [3, 3] [1, 1] dd 1 nd dec
             (setAttnFields ca c c (c / 2)) cr caf },
         (if 1 < i then setAttnFields ua a c c else ua),
         setAttnFields ca c c (c / 2)) := by
  unfold UNET.createUpsampler UpSample.init
  by_cases hi : 1 < i <;> simp [hi, ConvSet.init_len3, Except.map]

theorem UNET.buildUps_spec (dd : Nat) (nd : Bool) (dec : Nat) (udp : Rat) (caf : Option Nat)
    (cr : Bool) (cl : List Nat) :
    ∀ (idxs : List Nat) (ua ca : AttnArgs),
      ∃ ups ua2 ca2,
        UNET.buildUps dd nd dec udp caf cr cl idxs ua ca = Except.ok (ups, ua2, ca2) ∧
        ups.length = idxs.length ∧
        ua2.isNull = ua.isNull ∧
        ∀ k, k < idxs.length →
          ((ups.getD k default).attention.isSome =
            (decide (1 < idxs.getD k 0) && ! ua.isNull)) := by
  intro idxs
  induction idxs with
  | nil =>
    intro ua ca
    exact ⟨[], ua, ca, rfl, rfl, rfl, fun k hk => absurd hk (by simp)⟩
  | cons i rest ih =>
    intro ua ca
    obtain ⟨ups, ua2, ca2, hrec, hlen, hnull, hattn⟩ :=
      ih (if 1 < i then setAttnFields ua (cl.getD i 0) (cl.getD (i - 1) 0) (cl.getD (i - 1) 0)
           else ua)
         (setAttnFields ca (cl.getD (i - 1) 0) (cl.getD (i - 1) 0) ((cl.getD (i - 1) 0) / 2))
    have hstep : UNET.buildUps dd nd dec udp caf cr cl (i :: rest) ua ca =
        Except.ok
          ({ attention := attnOf (if 1 < i then
               setAttnFields ua (cl.getD i 0) (cl.getD (i - 1) 0) (cl.getD (i - 1) 0)
               else AttnArgs.null)
             transConv :=
               if dd ≤ 3 then
                 { dimsArg := none, inCh := cl.getD i 0, outCh := cl.getD (i - 1) 0,
                   kernel := 2, stride := 2 }
               else
                 { dimsArg := some dd, inCh := cl.getD i 0, outCh := cl.getD (i - 1) 0,
                   kernel := 2, stride := 2 }
             bnCall :=
               if dd ≤ 3 then { dimsArg := none, features := cl.getD (i - 1) 0 }
               else { dimsArg := some dd, features := cl.getD (i - 1) 0 }
             dropout := if 0 < udp then some udp else none
             conv := ConvSet.build [cl.getD i 0, cl.getD (i - 1) 0, cl.getD (i - 1) 0]
               [3, 3] [1, 1] dd 1 nd dec
               (setAttnFields ca (cl.getD (i - 1) 0) (cl.getD (i - 1) 0)
                 ((cl.getD (i - 1) 0) / 2)) cr caf } :: ups, ua2, ca2) := by
      simp only [UNET.buildUps, UNET.createUpsampler_eq, except_ok_bind, hrec]
    refine ⟨_, _, _, hstep, by simp [hlen], ?_, ?_⟩
    · rw [hnull]
      by_cases hi : 1 < i <;> simp [hi, isNull_setAttnFields]
    · intro k hk
      match k with
      | 0 =>
        simp only [List.getD_cons_zero]
        by_cases hi : 1 < i
        · simp [hi, attnOf_isSome, isNull_setAttnFields]
        · simp [hi, attnOf]
      | Nat.succ j =>
        simp only [List.getD_cons_succ]
        rw [hattn j (by simpa using hk)]
        by_cases hi : 1 < i <;> simp [hi, isNull_setAttnFields]

/-- Inversion of a successful `UNET.__init__`. -/
theorem unetInitInv {inCh : Nat} {cl : List Nat} {inL outL : Option Nat} {dd : Nat}
    {ddf : Bool} {dec : Nat} {udp : Rat} {ua ca : AttnArgs} {caf : Option Nat} {cr : Bool}
    {u : UNET} (h : UNET.init inCh cl inL outL dd ddf dec udp ua ca caf cr = Except.ok u) :
    2 ≤ cl.length ∧
    ∃ downsP : List DownSample × AttnArgs, ∃ bneck : ConvSet,
      ∃ upsP : List UpSample × AttnArgs × AttnArgs,
      UNET.buildDowns dd ddf dec caf cr
          ((List.range (cl.length - 1)).map (fun i =>
            [if i = 0 then inCh else cl.getD (i - 1) 0, cl.getD i 0, cl.getD i 0])) ca =
        Except.ok downsP ∧
      ConvSet.init [cl.getD (cl.length - 2) 0, cl.getD (cl.length - 1) 0,
          cl.getD (cl.length - 1) 0] [3, 3] [1, 1] dd 1 ddf dec AttnArgs.null cr caf =
        Except.ok bneck ∧
      UNET.buildUps dd ddf dec udp caf cr cl
          ((List.range (cl.length - 1)).map (fun k => cl.length - 1 - k))
          (setAttnFields ua (cl.getD (cl.length - 1) 0) (cl.getD (cl.length - 1) 0)
            ((cl.getD (cl.length - 1) 0) / 2)) downsP.2 =
        Except.ok upsP ∧
      u = { dataDimensions := dd, inLayer := inL, needDenoise := ddf,
            timeEmbeds := if ddf then some { count := dec, theta := 10000 } else none,
            downSamplers := downsP.1, bottleNeck := bneck,
            bottleNeckAttn := attnOf (setAttnFields ua (cl.getD (cl.length - 1) 0)
              (cl.getD (cl.length - 1) 0) ((cl.getD (cl.length - 1) 0) / 2)),
            upSamplers := upsP.1, outLayer := outL } := by
  unfold UNET.init at h
  obtain ⟨downsP, hdowns, h⟩ := exceptBind_ok.mp h
  by_cases hL : 2 ≤ cl.length
  · rw [if_pos hL] at h
    obtain ⟨bneck, hbneck, h⟩ := exceptBind_ok.mp h
    obtain ⟨upsP, hups, h⟩ := exceptBind_ok.mp h
    simp only [Except.ok.injEq] at h
    exact ⟨hL, downsP, bneck, upsP, hdowns, hbneck, hups, h.symm⟩
  · rw [if_neg hL] at h
    simp at h

/-- A successful `UNET.__init__` exists for every channel list of length at
least two, and its stage lists have the expected lengths and gate-attention
assignment. -/
theorem UNET.init_ok_master (inCh : Nat) (cl : List Nat) (inL outL : Option Nat) (dd : Nat)
    (ddf : Bool) (dec : Nat) (udp : Rat) (ua ca : AttnArgs) (caf : Option Nat) (cr : Bool)
    (hL : 2 ≤ cl.length) :
    ∃ u, UNET.init inCh cl inL outL dd ddf dec udp ua ca caf cr = Except.ok u ∧
      u.downSamplers.length = cl.length - 1 ∧
      u.upSamplers.length = cl.length - 1 ∧
      (∀ k, k < cl.length - 1 →
        ((u.upSamplers.getD k default).attention.isSome =
          (decide (1 < cl.length - 1 - k) && ! ua.isNull))) := by
  obtain ⟨downs, ca1, hdowns, hdlen⟩ :=
    UNET.buildDowns_ok dd ddf dec caf cr
      ((List.range (cl.length - 1)).map (fun i =>
        [if i = 0 then inCh else cl.getD (i - 1) 0, cl.getD i 0, cl.getD i 0])) ca
      (by
        intro s hs
        obtain ⟨i, _, hsi⟩ := List.mem_map.mp hs
        exact ⟨_, _, _, hsi.symm⟩)
  obtain ⟨ups, ua2, ca2, hups, hulen, _, huattn⟩ :=
    UNET.buildUps_spec dd ddf dec udp caf cr cl
      ((List.range (cl.length - 1)).map (fun k => cl.length - 1 - k))
      (setAttnFields ua (cl.getD (cl.length - 1) 0) (cl.getD (cl.length - 1) 0)
        ((cl.getD (cl.length - 1) 0) / 2)) ca1
  refine ⟨{ dataDimensions := dd, inLayer := inL, needDenoise := ddf,
            timeEmbeds := if ddf then some { count := dec, theta := 10000 } else none,
            downSamplers := downs,
            bottleNeck := ConvSet.build [cl.getD (cl.length - 2) 0, cl.getD (cl.length - 1) 0,
              cl.getD (cl.length - 1) 0] [3, 3] [1, 1] dd 1 ddf dec AttnArgs.null cr caf,
            bottleNeckAttn := attnOf (setAttnFields ua (cl.getD (cl.length - 1) 0)
              (cl.getD (cl.length - 1) 0) ((cl.getD (cl.length - 1) 0) / 2)),
            upSamplers := ups, outLayer := outL }, ?_, ?_, ?_, ?_⟩
  · unfold UNET.init
    simp only [hdowns, except_ok_bind, if_pos hL, ConvSet.init_len3, hups]
  · simpa using hdlen
  · simpa using hulen
  · intro k hk
    simp only
    rw [huattn k (by simpa using hk)]
    rw [isNull_setAttnFields, getD_map_range _ _ _ _ hk]

theorem except_error_bind {ε α β : Type} (e : ε) (f : α → Except ε β) :
    (Except.error e >>= f : Except ε β) = Except.error e := rfl

/-- With at least three channels the convolution list starts with the block
built at loop index `0`. -/
theorem ConvSet.build_convList_head {cs : List Nat} (ks ps : List Nat) (dims stride : Nat)
    (ut : Bool) (tec : Nat) (aa : AttnArgs) (ur : Bool) (caf : Option Nat)
    (h : 3 ≤ cs.length) :
    (ConvSet.build cs ks ps dims stride ut tec aa ur caf).convList.head? =
      some (mkConvBlock dims (cs.getD 0 0) (cs.getD 1 0) (ks.getD 0 0) (ps.getD 0 0) 1 caf) := by
  rw [ConvSet.build_convList]
  have h1 : cs.length - 1 = (cs.length - 2) + 1 := by omega
  rw [h1, List.range_succ_eq_map, List.map_cons, List.head?_cons]
  simp

theorem ConvSet.build_convList_ne_nil {cs : List Nat} (ks ps : List Nat) (dims stride : Nat)
    (ut : Bool) (tec : Nat) (aa : AttnArgs) (ur : Bool) (caf : Option Nat)
    (h : 3 ≤ cs.length) :
    (ConvSet.build cs ks ps dims stride ut tec aa ur caf).convList ≠ [] := by
  intro hnil
  have := @ConvSet.build_convList_head cs ks ps dims stride ut tec aa ur caf h
  rw [hnil] at this
  cases this

/-- `ConvSet.forward` with `use_time=True` and no time embedding fails on the
assertion, before any time conditioning or convolution chaining happens. -/
theorem ConvSet.convChain_time_none_error {c : ConvSet} (hne : c.convList ≠ [])
    (hnt : c.needTime = true) (b : Tensor) :
    c.convChain b none =
      Except.error "AssertionError: Time embedding is not provided for convolution steps." := by
  obtain ⟨blk, rest, hc⟩ := List.exists_cons_of_ne_nil hne
  unfold ConvSet.convChain
  rw [hc, hnt]
  simp [except_ok_bind, except_error_bind]

/-- The convolution chain ignores the time embedding when `use_time=False`. -/
theorem ConvSet.convChain_noTime {c : ConvSet} (hnt : c.needTime = false) (b : Tensor)
    (te : Option Tensor) :
    c.convChain b te =
      match c.convList.head? with
      | some blk =>
          Except.ok (c.convList.tail.foldl (fun acc blk2 => Tensor.convBlockApp blk2 acc)
            (Tensor.convBlockApp blk b))
      | none => Except.error "IndexError: list index out of range" := by
  unfold ConvSet.convChain
  cases hh : c.convList.head? <;>
    simp [hh, hnt, except_ok_bind, except_error_bind]

/-- The convolution chain with `use_time=True` and a supplied embedding:
the adjusted embedding is added right after the first convolution block. -/
theorem ConvSet.convChain_time {c : ConvSet} (hnt : c.needTime = true) {ea : LinearMod}
    (hea : c.embedAdjuster = some ea) (b te : Tensor) :
    c.convChain b (some te) =
      match c.convList.head? with
      | some blk =>
          Except.ok (c.convList.tail.foldl (fun acc blk2 => Tensor.convBlockApp blk2 acc)
            (Tensor.addTime ea te (Tensor.convBlockApp blk b)))
      | none => Except.error "IndexError: list index out of range" := by
  unfold ConvSet.convChain
  cases hh : c.convList.head? <;>
    simp [hh, hnt, hea, except_ok_bind, except_error_bind]

theorem downSampleInitInv {cs ks ps : List Nat} {dims : Nat} {caf : Option Nat} {ct : Bool}
    {tec : Nat} {caa : AttnArgs} {cr : Bool} {d : DownSample}
    (h : DownSample.init cs ks ps dims caf ct tec caa cr = Except.ok d) :
    ∃ c, ConvSet.init cs ks ps dims 1 ct tec caa cr caf = Except.ok c ∧
      d = { conv := c,
            pool := if dims ≤ 3 then { dimsArg := none, kernel := 2, stride := 2 }
                    else { dimsArg := some dims, kernel := 2, stride := 2 } } := by
  unfold DownSample.init at h
  obtain ⟨c, hc, hd⟩ := exceptMap_ok.mp h
  exact ⟨c, hc, hd.symm⟩

theorem upSampleInitInv {cs ks ps : List Nat} {dims : Nat} {udp : Rat} {aa : AttnArgs}
    {caf : Option Nat} {ct : Bool} {tec : Nat} {caa : AttnArgs} {cr : Bool} {us : UpSample}
    (h : UpSample.init cs ks ps dims udp aa caf ct tec caa cr = Except.ok us) :
    ∃ c, ConvSet.init cs ks ps dims 1 ct tec caa cr caf = Except.ok c ∧
      us = { attention := attnOf aa
             transConv :=
               if dims ≤ 3 then
                 { dimsArg := none, inCh := cs.getD 0 0, outCh := cs.getD (cs.length - 1) 0,
                   kernel := 2, stride := 2 }
               else
                 { dimsArg := some dims, inCh := cs.getD 0 0, outCh := cs.getD (cs.length - 1) 0,
                   kernel := 2, stride := 2 }
             bnCall :=
               if dims ≤ 3 then { dimsArg := none, features := cs.getD (cs.length - 1) 0 }
               else { dimsArg := some dims, features := cs.getD (cs.length - 1) 0 }
             dropout := if 0 < udp then some udp else none
             conv := c } := by
  unfold UpSample.init at h
  by_cases he : cs.isEmpty
  · rw [if_pos he] at h
    cases h
  · rw [if_neg he] at h
    obtain ⟨c, hc, hu⟩ := exceptMap_ok.mp h
    exact ⟨c, hc, hu.symm⟩

/-- Claim C3: a `ConvSet` built with `use_time=True` raises the assertion
error on `forward` when `time_embed` is `None` (the error is raised before any
time conditioning is applied, so the result is exactly that error); with
`use_time=False`, `forward` never inspects `time_embed`: the result is the
same for every `time_embed` value, and it succeeds with `time_embed=None`. -/
theorem claimC3 (cs ks ps : List Nat) (dims stride : Nat) (tec : Nat) (aa : AttnArgs)
    (ur : Bool) (caf : Option Nat) :
    (∀ c, ConvSet.init cs ks ps dims stride true tec aa ur caf = Except.ok c →
      ∀ b, c.forward b none =
        Except.error "AssertionError: Time embedding is not provided for convolution steps.") ∧
    (∀ c, ConvSet.init cs ks ps dims stride false tec aa ur caf = Except.ok c →
      ∀ b te, c.forward b te = c.forward b none ∧ ∃ t, c.forward b none = Except.ok t) := by
  constructor
  · intro c hc b
    obtain ⟨h1, _, _, _, _, hc⟩ := ConvSet.init_ok_iff.mp hc
    subst hc
    unfold ConvSet.forward
    rw [ConvSet.convChain_time_none_error
      (ConvSet.build_convList_ne_nil _ _ _ _ _ _ _ _ _ h1) rfl]
    rfl
  · intro c hc b te
    obtain ⟨h1, _, _, _, _, hc⟩ := ConvSet.init_ok_iff.mp hc
    subst hc
    constructor
    · unfold ConvSet.forward
      rw [ConvSet.convChain_noTime rfl, ConvSet.convChain_noTime rfl]
    · unfold ConvSet.forward
      rw [ConvSet.convChain_noTime rfl,
        ConvSet.build_convList_head _ _ _ _ _ _ _ _ _ h1]
      cases ur
      · exact ⟨_, rfl⟩
      · exact ⟨_, rfl⟩

/-- Claim C3 witness: the two branches exercised on concrete modules. -/
theorem claimC3_witness :
    ConvSet.init [1, 2, 3] [3, 3] [1, 1] 2 1 true 4 AttnArgs.null false none =
      Except.ok exConvTime ∧
    exConvTime.forward (Tensor.input 1) none =
      Except.error "AssertionError: Time embedding is not provided for convolution steps." ∧
    ConvSet.init [1, 2, 3] [3, 5] [1, 2] 2 1 false 0 AttnArgs.null false none =
      Except.ok exConvPlain ∧
    exConvPlain.forward (Tensor.input 1) (some (Tensor.input 7)) =
      exConvPlain.forward (Tensor.input 1) none ∧
    (exConvPlain.forward (Tensor.input 1) none).isOk = true := by
  have h1 := (claimC3 [1, 2, 3] [3, 3] [1, 1] 2 1 4 AttnArgs.null false none).1 exConvTime rfl
    (Tensor.input 1)
  have h2 := (claimC3 [1, 2, 3] [3, 5] [1, 2] 2 1 0 AttnArgs.null false none).2 exConvPlain rfl
    (Tensor.input 1) (some (Tensor.input 7))
  obtain ⟨t, ht⟩ := h2.2
  exact ⟨rfl, h1, rfl, h2.1, by rw [ht]; rfl⟩

/-- Claim C4: the `ConvSet` constructor succeeds exactly when the four
assertions hold (at least 3 channels, at least 2 kernels and paddings, and
kernels, paddings and channels-minus-one all the same length), and then
builds one convolution block per adjacent channel pair, the `i`-th mapping
`channel_sequence[i]` to `channel_sequence[i+1]` with `kernel_sequence[i]`
and `padding_sequence[i]`. -/
theorem claimC4 (cs ks ps : List Nat) (dims stride : Nat) (ut : Bool) (tec : Nat)
    (aa : AttnArgs) (ur : Bool) (caf : Option Nat) :
    ((∃ c, ConvSet.init cs ks ps dims stride ut tec aa ur caf = Except.ok c) ↔
      (3 ≤ cs.length ∧ 2 ≤ ks.length ∧ 2 ≤ ps.length ∧ ks.length = ps.length ∧
       ps.length = cs.length - 1)) ∧
    (∀ c, ConvSet.init cs ks ps dims stride ut tec aa ur caf = Except.ok c →
      c.convList.length = cs.length - 1 ∧
      ∀ i, i < cs.length - 1 →
        (c.convList.getD i default).conv.inCh = cs.getD i 0 ∧
        (c.convList.getD i default).conv.outCh = cs.getD (i + 1) 0 ∧
        (c.convList.getD i default).conv.kernel = ks.getD i 0 ∧
        (c.convList.getD i default).conv.padding = ps.getD i 0) := by
  constructor
  · constructor
    · rintro ⟨c, hc⟩
      have h := ConvSet.init_ok_iff.mp hc
      exact ⟨h.1, h.2.1, h.2.2.1, h.2.2.2.1, h.2.2.2.2.1⟩
    · rintro ⟨h1, h2, h3, h4, h5⟩
      exact ⟨_, ConvSet.init_ok_iff.mpr ⟨h1, h2, h3, h4, h5, rfl⟩⟩
  · intro c hc
    obtain ⟨h1, _, _, _, _, hc⟩ := ConvSet.init_ok_iff.mp hc
    subst hc
    constructor
    · rw [ConvSet.build_convList]
      simp
    · intro i hi
      rw [ConvSet.build_convList, getD_map_range _ _ _ _ hi]
      simp [mkConvBlock_conv]

/-- Claim C4 witness: the constructor and block layout on concrete
sequences. -/
theorem claimC4_witness :
    (3 ≤ ([1, 2, 3] : List Nat).length ∧ 2 ≤ ([3, 5] : List Nat).length ∧
     2 ≤ ([1, 2] : List Nat).length ∧ ([3, 5] : List Nat).length = ([1, 2] : List Nat).length ∧
     ([1, 2] : List Nat).length = ([1, 2, 3] : List Nat).length - 1) ∧
    exConvPlain.convList.length = 2 ∧
    (exConvPlain.convList.getD 1 default).conv.inCh = 2 ∧
    (exConvPlain.convList.getD 1 default).conv.outCh = 3 ∧
    (exConvPlain.convList.getD 1 default).conv.kernel = 5 ∧
    (exConvPlain.convList.getD 1 default).conv.padding = 2 := by
  have h := (claimC4 [1, 2, 3] [3, 5] [1, 2] 2 1 false 0 AttnArgs.null false none).2
    exConvPlain rfl
  have h2 := h.2 1 (by decide)
  exact ⟨by decide, h.1, h2.1, h2.2.1, h2.2.2.1, h2.2.2.2⟩

/-- Every factory call recorded by `ConvSet.__init__` carries the `dims`
argument exactly when `dims > 3`. -/
theorem ConvSet.build_dimsArgs_mem {cs ks ps : List Nat} {dims stride : Nat} {ut : Bool}
    {tec : Nat} {aa : AttnArgs} {ur : Bool} {caf : Option Nat} {x : Option Nat}
    (hx : x ∈ (ConvSet.build cs ks ps dims stride ut tec aa ur caf).dimsArgs) :
    x = if dims ≤ 3 then none else some dims := by
  by_cases hd : dims ≤ 3 <;> cases ur <;>
    simp [ConvSet.dimsArgs, ConvSet.build, mkConvBlock, hd] at hx ⊢ <;>
    tauto

/-- Claim C5: dimensionality dispatch is uniform across `ConvSet`,
`DownSample` and `UpSample`: when `dims <= 3` every factory call
(convolution, batch-norm, pooling, transposed convolution) is made without a
dimensions argument, and when `dims > 3` every factory call receives `dims`
as an extra leading argument. -/
theorem claimC5 (cs ks ps : List Nat) (dims stride : Nat) (ut : Bool) (tec : Nat)
    (aa : AttnArgs) (ur : Bool) (caf : Option Nat)
    (cs2 ks2 ps2 : List Nat) (dims2 : Nat) (caf2 : Option Nat) (ct2 : Bool) (tec2 : Nat)
    (caa2 : AttnArgs) (cr2 : Bool)
    (cs3 ks3 ps3 : List Nat) (dims3 : Nat) (udp3 : Rat) (aa3 : AttnArgs) (caf3 : Option Nat)
    (ct3 : Bool) (tec3 : Nat) (caa3 : AttnArgs) (cr3 : Bool) :
    (∀ c, ConvSet.init cs ks ps dims stride ut tec aa ur caf = Except.ok c →
      (dims ≤ 3 → ∀ x ∈ c.dimsArgs, x = none) ∧
      (3 < dims → ∀ x ∈ c.dimsArgs, x = some dims)) ∧
    (∀ d, DownSample.init cs2 ks2 ps2 dims2 caf2 ct2 tec2 caa2 cr2 = Except.ok d →
      (dims2 ≤ 3 → ∀ x ∈ d.dimsArgs, x = none) ∧
      (3 < dims2 → ∀ x ∈ d.dimsArgs, x = some dims2)) ∧
    (∀ us, UpSample.init cs3 ks3 ps3 dims3 udp3 aa3 caf3 ct3 tec3 caa3 cr3 = Except.ok us →
      (dims3 ≤ 3 → ∀ x ∈ us.dimsArgs, x = none) ∧
      (3 < dims3 → ∀ x ∈ us.dimsArgs, x = some dims3)) := by
  refine ⟨?_, ?_, ?_⟩
  · intro c hc
    obtain ⟨_, _, _, _, _, hc⟩ := ConvSet.init_ok_iff.mp hc
    subst hc
    constructor
    · intro hd x hx
      have := ConvSet.build_dimsArgs_mem hx
      rwa [if_pos hd] at this
    · intro hd x hx
      have := ConvSet.build_dimsArgs_mem hx
      rwa [if_neg (by omega)] at this
  · intro d hd0
    obtain ⟨c, hc, hd⟩ := downSampleInitInv hd0
    obtain ⟨_, _, _, _, _, hc⟩ := ConvSet.init_ok_iff.mp hc
    subst hc
    subst hd
    constructor
    · intro hdim x hx
      simp only [DownSample.dimsArgs, List.mem_append] at hx
      rcases hx with hx | hx
      · have := ConvSet.build_dimsArgs_mem hx
        rwa [if_pos hdim] at this
      · rw [List.mem_singleton] at hx
        rw [hx, if_pos hdim]
    · intro hdim x hx
      simp only [DownSample.dimsArgs, List.mem_append] at hx
      rcases hx with hx | hx
      · have := ConvSet.build_dimsArgs_mem hx
        rwa [if_neg (by omega)] at this
      · rw [List.mem_singleton] at hx
        rw [hx, if_neg (show ¬ dims2 ≤ 3 by omega)]
  · intro us hu0
    obtain ⟨c, hc, hu⟩ := upSampleInitInv hu0
    obtain ⟨_, _, _, _, _, hc⟩ := ConvSet.init_ok_iff.mp hc
    subst hc
    subst hu
    constructor
    · intro hdim x hx
      simp only [UpSample.dimsArgs, List.mem_append, List.mem_cons, if_pos hdim,
        List.mem_singleton, List.not_mem_nil, or_false] at hx
      rcases hx with (hx | hx) | hx
      · simp [hx]
      · simp [hx]
      · have := ConvSet.build_dimsArgs_mem hx
        rwa [if_pos hdim] at this
    · intro hdim x hx
      simp only [UpSample.dimsArgs, List.mem_append, List.mem_cons,
        if_neg (show ¬ dims3 ≤ 3 by omega), List.mem_singleton, List.not_mem_nil,
        or_false] at hx
      rcases hx with (hx | hx) | hx
      · simp [hx]
      · simp [hx]
      · have := ConvSet.build_dimsArgs_mem hx
        rwa [if_neg (by omega)] at this

/-- Claim C5 witness: a 5-dimensional `ConvSet` records `dims=5` on every
factory call; a 2-dimensional `DownSample` records none. -/
theorem claimC5_witness :
    ConvSet.init [1, 2, 3] [3, 3] [1, 1] 5 1 false 0 AttnArgs.null true none =
      Except.ok exConvDims5 ∧
    exConvDims5.dimsArgs.getD 0 none = some 5 ∧
    DownSample.init [1, 2, 3] [3, 3] [1, 1] 2 none false 0 AttnArgs.null false =
      Except.ok exDown ∧
    exDown.dimsArgs.getD 4 (some 9) = none := by
  have h5 := ((claimC5 [1, 2, 3] [3, 3] [1, 1] 5 1 false 0 AttnArgs.null true none
    [1, 2, 3] [3, 3] [1, 1] 2 none false 0 AttnArgs.null false
    [] [] [] 0 0 AttnArgs.null none false 0 AttnArgs.null false).1 exConvDims5 rfl).2
    (by decide) (exConvDims5.dimsArgs.getD 0 none) (by decide)
  have h2 := ((claimC5 [1, 2, 3] [3, 3] [1, 1] 5 1 false 0 AttnArgs.null true none
    [1, 2, 3] [3, 3] [1, 1] 2 none false 0 AttnArgs.null false
    [] [] [] 0 0 AttnArgs.null none false 0 AttnArgs.null false).2.1 exDown rfl).1
    (by decide) (exDown.dimsArgs.getD 4 (some 9)) (by decide)
  exact ⟨rfl, h5, rfl, h2⟩

/-- Claim C6: with `use_residual=True` the constructor builds `res_match` as a
kernel-size-1 convolution from `channel_sequence[0]` to `channel_sequence[-1]`
with the constructor's stride, followed by batch normalization, and `forward`
returns `ReLU(conv-chain output + res_match(input))`; with
`use_residual=False` no residual branch is constructed and the conv-chain
output passes through that branch unchanged. -/
theorem claimC6 (cs ks ps : List Nat) (dims stride : Nat) (ut : Bool) (tec : Nat)
    (aa : AttnArgs) (caf : Option Nat) :
    (∀ c, ConvSet.init cs ks ps dims stride ut tec aa true caf = Except.ok c →
      ∃ rm, c.resMatch = some rm ∧
        rm.conv.inCh = cs.getD 0 0 ∧
        rm.conv.outCh = cs.getD (cs.length - 1) 0 ∧
        rm.conv.kernel = 1 ∧
        rm.conv.stride = stride ∧
        rm.bn.features = cs.getD (cs.length - 1) 0 ∧
        (∀ b te x, c.attention = none → c.convChain b te = Except.ok x →
          c.forward b te = Except.ok (Tensor.reluAdd x (Tensor.resMatchApp rm b)))) ∧
    (∀ c, ConvSet.init cs ks ps dims stride ut tec aa false caf = Except.ok c →
      c.resMatch = none ∧ c.needRes = false ∧
      (∀ b te, c.attention = none → c.forward b te = c.convChain b te)) := by
  constructor
  · intro c hc
    obtain ⟨_, _, _, _, _, hc⟩ := ConvSet.init_ok_iff.mp hc
    subst hc
    refine ⟨_, rfl, ?_, ?_, ?_, ?_, ?_, ?_⟩
    · by_cases hd : dims ≤ 3 <;> simp [hd]
    · by_cases hd : dims ≤ 3 <;> simp [hd]
    · by_cases hd : dims ≤ 3 <;> simp [hd]
    · by_cases hd : dims ≤ 3 <;> simp [hd]
    · by_cases hd : dims ≤ 3 <;> simp [hd]
    · intro b te x hattn hch
      unfold ConvSet.forward
      rw [hch, except_ok_bind]
      simp only [hattn]
      rfl
  · intro c hc
    obtain ⟨_, _, _, _, _, hc⟩ := ConvSet.init_ok_iff.mp hc
    subst hc
    refine ⟨rfl, rfl, ?_⟩
    intro b te hattn
    unfold ConvSet.forward
    cases hch : (ConvSet.build cs ks ps dims stride ut tec aa false caf).convChain b te with
    | error e => rfl
    | ok x =>
      rw [except_ok_bind]
      simp only [hattn]
      rfl

/-- Claim C6 witness: the residual branch of a concrete residual `ConvSet`
(`stride=3`), and the pass-through of a non-residual one. -/
theorem claimC6_witness :
    ConvSet.init [1, 2, 3] [3, 3] [1, 1] 2 3 false 0 AttnArgs.null true none =
      Except.ok exConvRes ∧
    exConvRes.resMatch = some exResMatch ∧
    (∀ x, exConvRes.convChain (Tensor.input 1) none = Except.ok x →
      exConvRes.forward (Tensor.input 1) none =
        Except.ok (Tensor.reluAdd x (Tensor.resMatchApp exResMatch (Tensor.input 1)))) ∧
    exConvPlain.resMatch = none ∧
    exConvPlain.forward (Tensor.input 1) none = exConvPlain.convChain (Tensor.input 1) none := by
  obtain ⟨rm, hrm, _, _, _, _, _, hfwd⟩ :=
    ((claimC6 [1, 2, 3] [3, 3] [1, 1] 2 3 false 0 AttnArgs.null none).1 exConvRes rfl)
  have h2 := (claimC6 [1, 2, 3] [3, 5] [1, 2] 2 1 false 0 AttnArgs.null none).2 exConvPlain rfl
  have hsome : some exResMatch = some rm := by
    rw [← hrm]
    rfl
  have hrm2 : exResMatch = rm := Option.some_injective _ hsome
  refine ⟨rfl, rfl, ?_, h2.1, h2.2.2 (Tensor.input 1) none rfl⟩
  intro x hx
  have := hfwd (Tensor.input 1) none x rfl hx
  rwa [← hrm2] at this

/-- A successful convolution chain introduces no attention into the term. -/
theorem ConvSet.convChain_usesAttn {c : ConvSet} {b : Tensor} {te : Option Tensor} {ch : Tensor}
    (hch : c.convChain b te = Except.ok ch) (hb : b.usesAttn = false)
    (hte : optUsesAttn te = false) : ch.usesAttn = false := by
  unfold ConvSet.convChain at hch
  cases hh : c.convList.head? with
  | none =>
    rw [hh] at hch
    simp [except_error_bind] at hch
  | some blk =>
    rw [hh, except_ok_bind] at hch
    cases hnt : c.needTime with
    | false =>
      rw [hnt] at hch
      simp only [Bool.false_eq_true, if_false, except_ok_bind, Except.ok.injEq] at hch
      rw [← hch, foldl_convBlockApp_usesAttn]
      simpa [Tensor.usesAttn] using hb
    | true =>
      rw [hnt] at hch
      cases te with
      | none => simp [except_error_bind] at hch
      | some t =>
        cases hea : c.embedAdjuster with
        | none =>
          rw [hea] at hch
          simp [except_error_bind] at hch
        | some ea =>
          rw [hea] at hch
          simp only [if_true, except_ok_bind, Except.ok.injEq] at hch
          rw [← hch, foldl_convBlockApp_usesAttn]
          simp only [Tensor.usesAttn, Bool.or_eq_false_iff]
          exact ⟨by simpa [optUsesAttn] using hte, hb⟩

/-- Claim C7: attention is optional.  A `ConvSet` built with
`attention_args=None` creates no attention module and its `forward` output
contains no attention application (given attention-free inputs); built from a
dict or dataclass it creates an `Attention` module that `forward` applies.
An `UpSample` built with `attention_args=None` passes the skip connection
through untouched, while a dict/dataclass makes `forward` apply the gate
attention to the skip connection (against the current decoder tensor) before
upscaling and concatenation.  A `UNET` built with `up_attn_args=None` creates
no bottleneck attention and no gate attention on any up-sampling stage. -/
theorem claimC7 (cs ks ps : List Nat) (dims stride : Nat) (ut : Bool) (tec : Nat)
    (aa : AttnArgs) (ur : Bool) (caf : Option Nat)
    (cs2 ks2 ps2 : List Nat) (dims2 : Nat) (udp2 : Rat) (aa2 : AttnArgs) (caf2 : Option Nat)
    (ct2 : Bool) (tec2 : Nat) (caa2 : AttnArgs) (cr2 : Bool)
    (inCh : Nat) (cl : List Nat) (inL outL : Option Nat) (dd : Nat) (ddf : Bool) (dec : Nat)
    (udp : Rat) (ca : AttnArgs) (caf3 : Option Nat) (cr3 : Bool) :
    (∀ c, ConvSet.init cs ks ps dims stride ut tec aa ur caf = Except.ok c →
      c.attention = attnOf aa ∧
      (aa = AttnArgs.null →
        ∀ b te x, c.forward b te = Except.ok x → b.usesAttn = false →
          optUsesAttn te = false → x.usesAttn = false) ∧
      (aa.isNull = false →
        ∀ b te x, c.forward b te = Except.ok x → x.usesAttn = true)) ∧
    (∀ us, UpSample.init cs2 ks2 ps2 dims2 udp2 aa2 caf2 ct2 tec2 caa2 cr2 = Except.ok us →
      us.attention = attnOf aa2 ∧
      (aa2 = AttnArgs.null →
        ∀ cur skip te, us.forward cur skip te =
          us.conv.forward (Tensor.cat (Tensor.upscale us.transConv us.bnCall us.dropout cur)
            skip) te) ∧
      (∀ a, attnOf aa2 = some a →
        ∀ cur skip te, us.forward cur skip te =
          us.conv.forward (Tensor.cat (Tensor.upscale us.transConv us.bnCall us.dropout cur)
            (Tensor.attnGate a cur skip)) te)) ∧
    (∀ u, UNET.init inCh cl inL outL dd ddf dec udp AttnArgs.null ca caf3 cr3 = Except.ok u →
      u.bottleNeckAttn = none ∧
      ∀ k, k < u.upSamplers.length → (u.upSamplers.getD k default).attention = none) := by
  refine ⟨?_, ?_, ?_⟩
  · intro c hc
    obtain ⟨_, _, _, _, _, hc⟩ := ConvSet.init_ok_iff.mp hc
    subst hc
    refine ⟨rfl, ?_, ?_⟩
    · intro haa b te x hfwd hb hte
      subst haa
      unfold ConvSet.forward at hfwd
      obtain ⟨ch, hch, hres⟩ := exceptBind_ok.mp hfwd
      have hchattn := ConvSet.convChain_usesAttn hch hb hte
      simp only [ConvSet.build, attnOf] at hres
      cases ur
      · simp only [Bool.false_eq_true, if_false, Except.ok.injEq] at hres
        rw [← hres]
        exact hchattn
      · simp only [if_true, Except.ok.injEq] at hres
        rw [← hres]
        simp [Tensor.usesAttn, hchattn, hb]
    · intro haa b te x hfwd
      unfold ConvSet.forward at hfwd
      obtain ⟨ch, hch, hres⟩ := exceptBind_ok.mp hfwd
      have hsome : ∃ a, attnOf aa = some a := by
        cases aa
        · cases haa
        · exact ⟨_, rfl⟩
        · exact ⟨_, rfl⟩
      obtain ⟨a, ha⟩ := hsome
      have hattn : (ConvSet.build cs ks ps dims stride ut tec aa ur caf).attention = some a := ha
      rw [hattn] at hres
      cases ur
      · simp only [ConvSet.build, Bool.false_eq_true, if_false, Except.ok.injEq] at hres
        rw [← hres]
        rfl
      · simp only [ConvSet.build, if_true, Except.ok.injEq] at hres
        rw [← hres]
        rfl
  · intro us hu0
    obtain ⟨c, _, hu⟩ := upSampleInitInv hu0
    subst hu
    refine ⟨rfl, ?_, ?_⟩
    · intro haa cur skip te
      subst haa
      rfl
    · intro a ha cur skip te
      unfold UpSample.forward
      simp only [ha]
  · intro u hu
    obtain ⟨hL, downsP, bneck, upsP, hdowns, hbneck, hups, hu⟩ := unetInitInv hu
    obtain ⟨ups, ua2, ca2, hups2, hulen, _, huattn⟩ :=
      UNET.buildUps_spec dd ddf dec udp caf3 cr3 cl
        ((List.range (cl.length - 1)).map (fun k => cl.length - 1 - k))
        (setAttnFields AttnArgs.null (cl.getD (cl.length - 1) 0) (cl.getD (cl.length - 1) 0)
          ((cl.getD (cl.length - 1) 0) / 2)) downsP.2
    rw [hups2] at hups
    have hupsP : upsP = (ups, ua2, ca2) := by
      injection hups with h
      exact h.symm
    subst hu
    constructor
    · rfl
    · intro k hk
      simp only [hupsP]
      simp only [hupsP] at hk
      have hk2 : k < ((List.range (cl.length - 1)).map (fun j => cl.length - 1 - j)).length := by
        rw [← hulen]
        exact hk
      have := huattn k hk2
      simp only [setAttnFields, AttnArgs.isNull, Bool.not_true, Bool.and_false] at this
      cases ho : (ups.getD k default).attention with
      | none => rfl
      | some a2 =>
        rw [ho] at this
        simp at this

/-- Claim C7 witness: concrete modules with and without attention. -/
theorem claimC7_witness :
    exConvAttn.attention =
      some { encChannels := 5, skipChannels := 6, spatialInterChannels := 7 } ∧
    exConvPlain.forward (Tensor.input 1) none = Except.ok exPlainOut ∧
    exPlainOut.usesAttn = false ∧
    exConvAttn.forward (Tensor.input 1) none = Except.ok exAttnOut ∧
    exAttnOut.usesAttn = true ∧
    exUpNull.attention = none ∧
    exUpNull.forward (Tensor.input 4) (Tensor.input 2) none =
      exUpNull.conv.forward (Tensor.cat
        (Tensor.upscale exUpNull.transConv exUpNull.bnCall exUpNull.dropout (Tensor.input 4))
        (Tensor.input 2)) none ∧
    exUp.forward (Tensor.input 4) (Tensor.input 2) none =
      exUp.conv.forward (Tensor.cat
        (Tensor.upscale exUp.transConv exUp.bnCall exUp.dropout (Tensor.input 4))
        (Tensor.attnGate { encChannels := 1, skipChannels := 1, spatialInterChannels := 1 }
          (Tensor.input 4) (Tensor.input 2))) none ∧
    exUNET.bottleNeckAttn = none ∧
    (exUNET.upSamplers.getD 0 default).attention = none := by
  have h1 := claimC7 [1, 2, 3] [3, 3] [1, 1] 2 1 false 0
    (AttnArgs.dict { encChannels := 5, skipChannels := 6, spatialInterChannels := 7 }) false none
    [4, 2, 2] [3, 3] [1, 1] 2 0 AttnArgs.null none false 0 AttnArgs.null false
    1 [2, 3] none none 2 false 0 0 AttnArgs.null none false
  have h2 := claimC7 [1, 2, 3] [3, 5] [1, 2] 2 1 false 0 AttnArgs.null false none
    [4, 2, 2] [3, 3] [1, 1] 7 (3 / 10 : Rat)
    (AttnArgs.dcls { encChannels := 1, skipChannels := 1, spatialInterChannels := 1 }) none
    false 0 AttnArgs.null false
    1 [2, 3] none none 2 false 0 0 AttnArgs.null none false
  have hconvAttn := h1.1 exConvAttn rfl
  have hconvPlain := h2.1 exConvPlain rfl
  have hUNET := h1.2.2 exUNET rfl
  refine ⟨hconvAttn.1.trans rfl, rfl, ?_, rfl, ?_, ?_, ?_, ?_, hUNET.1, hUNET.2 0 (by decide)⟩
  · exact hconvPlain.2.1 rfl (Tensor.input 1) none exPlainOut rfl rfl rfl
  · exact hconvAttn.2.2 rfl (Tensor.input 1) none exAttnOut rfl
  · exact ((h1.2.1 exUpNull rfl).1).trans rfl
  · exact (h1.2.1 exUpNull rfl).2.1 rfl (Tensor.input 4) (Tensor.input 2) none
  · exact (h2.2.1 exUp rfl).2.2
      { encChannels := 1, skipChannels := 1, spatialInterChannels := 1 } rfl
      (Tensor.input 4) (Tensor.input 2) none

/-- Claim C1: for every channel list of length `L >= 2` the `UNET`
constructor succeeds and builds exactly `L-1` `DownSample` and `L-1`
`UpSample` stages; `DownSample.forward` returns the pair
`(convolution output before pooling, pooled output)`; the encoder loop stores
exactly `L-1` skip connections (one per stage, in order); and the decoder
loop pops them in last-in-first-out order: it consumes the trace
`skips.reverse`, so the `i`-th up-sampling stage (in application order)
receives the pre-pooling convolution output of the `(L-2-i)`-th down-sampling
stage, each stored skip is consumed exactly once, and nothing is left over. -/
theorem claimC1 (inChannels : Nat) (channelList : List Nat) (inLayer outLayer : Option Nat)
    (dataDims : Nat) (denoiseDiff : Bool) (dec : Nat) (udp : Rat) (ua ca : AttnArgs)
    (caf : Option Nat) (cr : Bool) (hL : 2 ≤ channelList.length) :
    ∃ u, UNET.init inChannels channelList inLayer outLayer dataDims denoiseDiff dec udp ua ca
        caf cr = Except.ok u ∧
      u.downSamplers.length = channelList.length - 1 ∧
      u.upSamplers.length = channelList.length - 1 ∧
      (∀ ds ∈ u.downSamplers, ∀ b te cb enc, ds.forward b te = Except.ok (cb, enc) →
        ds.conv.forward b te = Except.ok cb ∧ enc = Tensor.pool ds.pool cb) ∧
      (∀ start te skips bottom, runDown u.downSamplers start te = Except.ok (skips, bottom) →
        skips.length = channelList.length - 1) ∧
      (∀ skips cur te tr lo out, skips.length = u.upSamplers.length →
        runUp u.upSamplers skips cur te = Except.ok (tr, lo, out) →
        lo = [] ∧ tr = skips.reverse ∧
        ∀ i, i < skips.length →
          tr.getD i default = skips.getD (channelList.length - 2 - i) default) := by
  obtain ⟨u, hu, hdlen, hulen, _⟩ :=
    UNET.init_ok_master inChannels channelList inLayer outLayer dataDims denoiseDiff dec udp
      ua ca caf cr hL
  refine ⟨u, hu, hdlen, hulen, ?_, ?_, ?_⟩
  · intro ds _ b te cb enc h
    unfold DownSample.forward at h
    obtain ⟨cb0, hcb, hpair⟩ := exceptMap_ok.mp h
    simp only [Prod.mk.injEq] at hpair
    rw [← hpair.1]
    exact ⟨hcb, by rw [← hpair.2, hpair.1]⟩
  · intro start te skips bottom h
    rw [runDown_length u.downSamplers start te skips bottom h, hdlen]
  · intro skips cur te tr lo out hlen hrun
    have hspec := runUp_spec u.upSamplers skips cur te tr lo out hlen hrun
    refine ⟨hspec.1, hspec.2, ?_⟩
    intro i hi
    rw [hspec.2, reverse_getD _ _ _ hi]
    have h3 : skips.length - 1 - i = channelList.length - 2 - i := by
      rw [hlen, hulen]
      omega
    rw [h3]

/-- Claim C1 witness: the concrete two-level `UNET`. -/
theorem claimC1_witness :
    (2 ≤ ([2, 3] : List Nat).length) ∧
    exUNET.downSamplers.length = 1 ∧ exUNET.upSamplers.length = 1 := by
  obtain ⟨u, hu, h1, h2, _⟩ :=
    claimC1 1 [2, 3] none none 2 false 0 0 AttnArgs.null AttnArgs.null none false (by decide)
  have he : u = exUNET := by
    have h4 : (Except.ok u : Except String UNET) = Except.ok exUNET := by
      rw [← hu]
      rfl
    injection h4
  subst he
  exact ⟨by decide, h1, h2⟩

/-- Inversion of a successful `ResNet.__init__`. -/
theorem resnetInitInv {lcl lkl lpl : List (List Nat)} {lsl : List Nat}
    {inL outL : Option Nat} {dd : Nat} {ddf : Bool} {dec : Nat} {caf : Option Nat}
    {ca : AttnArgs} {cr : Bool} {r : ResNet} {muts : List (List Nat)}
    (h : ResNet.init lcl lkl lpl lsl inL outL dd ddf dec caf ca cr = Except.ok (r, muts)) :
    (lcl.length = lkl.length ∧ lkl.length = lpl.length ∧ lpl.length = lsl.length) ∧
    ∃ p : List (List ConvSet) × List (List Nat) × AttnArgs,
      ResNet.buildLayers dd ddf dec caf cr lcl lkl lpl lsl false ca = Except.ok p ∧
      muts = p.2.1 ∧
      r = { dataDimensions := dd, inLayer := inL, outLayer := outL, needDenoise := ddf,
            timeEmbeds := if ddf then some { count := dec, theta := 10000 } else none,
            resNetLayers := p.1 } := by
  unfold ResNet.init at h
  by_cases hlen : lcl.length = lkl.length ∧ lkl.length = lpl.length ∧ lpl.length = lsl.length
  · rw [if_pos hlen] at h
    obtain ⟨p, hp, h⟩ := exceptBind_ok.mp h
    simp only [Except.ok.injEq, Prod.mk.injEq] at h
    exact ⟨hlen, p, hp, h.2.symm, h.1.symm⟩
  · rw [if_neg hlen] at h
    simp at h

/-- Claim C2: with `denoise_diff=False` neither `UNET` nor `ResNet` creates a
sinusoidal time-embedding module, and `forward` is independent of the
`time_step` argument: two calls on the same batch with different time steps
return the same result. -/
theorem claimC2 (inCh : Nat) (cl : List Nat) (inL outL : Option Nat) (dd : Nat) (dec : Nat)
    (udp : Rat) (ua ca : AttnArgs) (caf : Option Nat) (cr : Bool)
    (lcl lkl lpl : List (List Nat)) (lsl : List Nat) (inL2 outL2 : Option Nat) (dd2 : Nat)
    (dec2 : Nat) (caf2 : Option Nat) (ca2 : AttnArgs) (cr2 : Bool) :
    (∀ u, UNET.init inCh cl inL outL dd false dec udp ua ca caf cr = Except.ok u →
      u.timeEmbeds = none ∧ ∀ b t1 t2, u.forward b t1 = u.forward b t2) ∧
    (∀ r muts, ResNet.init lcl lkl lpl lsl inL2 outL2 dd2 false dec2 caf2 ca2 cr2 =
        Except.ok (r, muts) →
      r.timeEmbeds = none ∧ ∀ b t1 t2, r.forward b t1 = r.forward b t2) := by
  constructor
  · intro u hu
    obtain ⟨_, downsP, bneck, upsP, _, _, _, hu⟩ := unetInitInv hu
    subst hu
    exact ⟨rfl, fun b t1 t2 => rfl⟩
  · intro r muts hr
    obtain ⟨_, p, _, _, hr⟩ := resnetInitInv hr
    subst hr
    exact ⟨rfl, fun b t1 t2 => rfl⟩

/-- Claim C2 witness: concrete `UNET` and `ResNet` without time
conditioning. -/
theorem claimC2_witness :
    UNET.init 1 [2, 3] none none 2 false 0 0 AttnArgs.null AttnArgs.null none false =
      Except.ok exUNET ∧
    exUNET.timeEmbeds = none ∧
    exUNET.forward (Tensor.input 1) (some (Tensor.input 9)) =
      exUNET.forward (Tensor.input 1) none ∧
    ResNet.init [[1, 2, 3]] [[3, 3]] [[1, 1]] [2] none none 2 false 0 none AttnArgs.null
      false = Except.ok (exResNetP.1, exResNetP.2) ∧
    exResNetP.1.timeEmbeds = none ∧
    exResNetP.1.forward (Tensor.input 1) (some (Tensor.input 9)) =
      exResNetP.1.forward (Tensor.input 1) none := by
  have h1 := (claimC2 1 [2, 3] none none 2 0 0 AttnArgs.null AttnArgs.null none false
    [[1, 2, 3]] [[3, 3]] [[1, 1]] [2] none none 2 0 none AttnArgs.null false).1 exUNET rfl
  have h2 := (claimC2 1 [2, 3] none none 2 0 0 AttnArgs.null AttnArgs.null none false
    [[1, 2, 3]] [[3, 3]] [[1, 1]] [2] none none 2 0 none AttnArgs.null false).2
    exResNetP.1 exResNetP.2 rfl
  exact ⟨rfl, h1.1, h1.2 (Tensor.input 1) (some (Tensor.input 9)) none, rfl, h2.1,
    h2.2 (Tensor.input 1) (some (Tensor.input 9)) none⟩

/-- The in-place update `channel_sequence[0] = channel_sequence[-1]` makes the
first entry of the list equal its last entry. -/
theorem set_first_last (l : List Nat) :
    (l.set 0 (l.getD (l.length - 1) 0)).getD 0 0 =
      (l.set 0 (l.getD (l.length - 1) 0)).getD
        ((l.set 0 (l.getD (l.length - 1) 0)).length - 1) 0 := by
  cases l with
  | nil => rfl
  | cons a t =>
    cases t with
    | nil => rfl
    | cons b t2 =>
      simp only [List.set, List.length_cons, List.getD_cons_zero, List.getD_cons_succ,
        Nat.add_sub_cancel]

/-- `create_resnet_layer` returns the caller's channel list with index `0`
overwritten by its last entry. -/
theorem ResNet.createResnetLayer_inv {dd : Nat} {ddf : Bool} {dec : Nat} {caf : Option Nat}
    {cr : Bool} {ch ks ps : List Nat} {sc stride : Nat} {ca : AttnArgs}
    {layer : List ConvSet} {mseq : List Nat} {ca2 : AttnArgs}
    (h : ResNet.createResnetLayer dd ddf dec caf cr ch ks ps sc stride ca =
      Except.ok (layer, mseq, ca2)) :
    mseq = ch.set 0 (ch.getD (ch.length - 1) 0) := by
  unfold ResNet.createResnetLayer at h
  obtain ⟨first, _, h⟩ := exceptBind_ok.mp h
  obtain ⟨rest, _, h⟩ := exceptBind_ok.mp h
  simp only [Except.ok.injEq, Prod.mk.injEq] at h
  exact h.2.1.symm

/-- The layer loop of `ResNet.__init__` collects one mutated channel list per
layer, each equal to the caller's list with its head overwritten by its last
entry. -/
theorem ResNet.buildLayers_spec (dd : Nat) (ddf : Bool) (dec : Nat) (caf : Option Nat)
    (cr : Bool) :
    ∀ (lcl lkl lpl : List (List Nat)) (lsl : List Nat) (fm : Bool) (ca : AttnArgs)
      (layers : List (List ConvSet)) (muts : List (List Nat)) (ca2 : AttnArgs),
      ResNet.buildLayers dd ddf dec caf cr lcl lkl lpl lsl fm ca =
        Except.ok (layers, muts, ca2) →
      ((lcl.length = lkl.length ∧ lkl.length = lpl.length ∧ lpl.length = lsl.length) →
        muts.length = lcl.length) ∧
      ∀ k, k < muts.length →
        muts.getD k [] =
          (lcl.getD k []).set 0 ((lcl.getD k []).getD ((lcl.getD k []).length - 1) 0) := by
  intro lcl
  induction lcl with
  | nil =>
    intro lkl lpl lsl fm ca layers muts ca2 h
    simp only [ResNet.buildLayers, Except.ok.injEq, Prod.mk.injEq] at h
    refine ⟨fun _ => ?_, fun k hk => ?_⟩
    · rw [← h.2.1]
    · rw [← h.2.1] at hk
      simp at hk
  | cons ch chs ih =>
    intro lkl lpl lsl fm ca layers muts ca2 h
    cases lkl with
    | nil =>
      simp only [ResNet.buildLayers, Except.ok.injEq, Prod.mk.injEq] at h
      refine ⟨fun hc => ?_, fun k hk => ?_⟩
      · exact absurd hc.1 (by simp)
      · rw [← h.2.1] at hk
        simp at hk
    | cons ks kss =>
      cases lpl with
      | nil =>
        simp only [ResNet.buildLayers, Except.ok.injEq, Prod.mk.injEq] at h
        refine ⟨fun hc => ?_, fun k hk => ?_⟩
        · exact absurd hc.2.1 (by simp)
        · rw [← h.2.1] at hk
          simp at hk
      | cons ps pss =>
        cases lsl with
        | nil =>
          simp only [ResNet.buildLayers, Except.ok.injEq, Prod.mk.injEq] at h
          refine ⟨fun hc => ?_, fun k hk => ?_⟩
          · exact absurd hc.2.2 (by simp)
          · rw [← h.2.1] at hk
            simp at hk
        | cons sc scs =>
          rw [ResNet.buildLayers] at h
          obtain ⟨p, hp, h⟩ := exceptBind_ok.mp h
          obtain ⟨q, hq, h⟩ := exceptBind_ok.mp h
          simp only [Except.ok.injEq, Prod.mk.injEq] at h
          obtain ⟨p1, p2, p3⟩ := p
          obtain ⟨q1, q2, q3⟩ := q
          have hrec := ih kss pss scs true p3 q1 q2 q3 hq
          have hmut : p2 = ch.set 0 (ch.getD (ch.length - 1) 0) :=
            ResNet.createResnetLayer_inv hp
          refine ⟨fun hc => ?_, fun k hk => ?_⟩
          · rw [← h.2.1]
            simp only [List.length_cons]
            have hc2 : chs.length = kss.length ∧ kss.length = pss.length ∧
                pss.length = scs.length := by
              simpa using hc
            rw [hrec.1 hc2]
          · rw [← h.2.1] at hk ⊢
            match k with
            | 0 =>
              simp only [List.getD_cons_zero]
              exact hmut
            | Nat.succ j =>
              simp only [List.getD_cons_succ]
              exact hrec.2 j (by simpa using hk)

/-- Claim C9: `ResNet.create_resnet_layer` assigns
`channel_sequence[0] = channel_sequence[-1]` on its argument in place, so
after `ResNet.__init__` the caller's `layer_channels_list` holds, for every
layer, the original list with its first entry overwritten by its last entry —
in particular the first entry of every per-layer channel list equals that
list's last entry. -/
theorem claimC9 (lcl lkl lpl : List (List Nat)) (lsl : List Nat) (inL outL : Option Nat)
    (dd : Nat) (ddf : Bool) (dec : Nat) (caf : Option Nat) (ca : AttnArgs) (cr : Bool) :
    ∀ r muts, ResNet.init lcl lkl lpl lsl inL outL dd ddf dec caf ca cr =
        Except.ok (r, muts) →
      muts.length = lcl.length ∧
      ∀ k, k < muts.length →
        muts.getD k [] =
          (lcl.getD k []).set 0 ((lcl.getD k []).getD ((lcl.getD k []).length - 1) 0) ∧
        (muts.getD k []).getD 0 0 =
          (muts.getD k []).getD ((muts.getD k []).length - 1) 0 := by
  intro r muts h
  obtain ⟨hlen, p, hp, hmuts, _⟩ := resnetInitInv h
  obtain ⟨p1, p2, p3⟩ := p
  simp only at hmuts
  rw [hmuts]
  have hspec := ResNet.buildLayers_spec dd ddf dec caf cr lcl lkl lpl lsl false ca p1 p2 p3 hp
  refine ⟨hspec.1 hlen, fun k hk => ⟨hspec.2 k hk, ?_⟩⟩
  rw [hspec.2 k hk]
  exact set_first_last _

/-- Claim C9 witness: constructing a `ResNet` from `[[1, 2, 3]]` leaves the
caller's channel list as `[[3, 2, 3]]`. -/
theorem claimC9_witness :
    ResNet.init [[1, 2, 3]] [[3, 3]] [[1, 1]] [2] none none 2 false 0 none AttnArgs.null
      false = Except.ok (exResNetP.1, exResNetP.2) ∧
    exResNetP.2.length = 1 ∧
    exResNetP.2.getD 0 [] = [3, 2, 3] ∧
    (exResNetP.2.getD 0 []).getD 0 0 = (exResNetP.2.getD 0 []).getD 2 0 := by
  have h := claimC9 [[1, 2, 3]] [[3, 3]] [[1, 1]] [2] none none 2 false 0 none AttnArgs.null
    false exResNetP.1 exResNetP.2 rfl
  have h0 := h.2 0 (by rw [h.1]; decide)
  exact ⟨rfl, h.1.trans rfl, h0.1.trans rfl, h0.2.trans rfl⟩

/-- Claim C10: in a `UNET` built with a non-None `up_attn_args` (dict or
dataclass), the up-sampling stage built with `cur_index == 1` — the last
element of `up_samplers`, applied last in `forward` — has no gate attention
module, while every stage built with `cur_index > 1` (all earlier list
entries) receives an `Attention` module. -/
theorem claimC10 (inCh : Nat) (cl : List Nat) (inL outL : Option Nat) (dd : Nat) (ddf : Bool)
    (dec : Nat) (udp : Rat) (ua ca : AttnArgs) (caf : Option Nat) (cr : Bool)
    (hnn : ua.isNull = false) :
    ∀ u, UNET.init inCh cl inL outL dd ddf dec udp ua ca caf cr = Except.ok u →
      u.upSamplers.length = cl.length - 1 ∧
      1 ≤ u.upSamplers.length ∧
      (u.upSamplers.getD (u.upSamplers.length - 1) default).attention = none ∧
      ∀ k, k < u.upSamplers.length - 1 →
        ((u.upSamplers.getD k default).attention).isSome = true := by
  intro u hu
  have hL : 2 ≤ cl.length := (unetInitInv hu).1
  obtain ⟨u2, hu2, _, hulen, hattn⟩ :=
    UNET.init_ok_master inCh cl inL outL dd ddf dec udp ua ca caf cr hL
  obtain rfl : u2 = u := by
    rw [hu] at hu2
    injection hu2 with h
    exact h.symm
  refine ⟨hulen, ?_, ?_, ?_⟩
  · rw [hulen]
    omega
  · rw [hulen]
    have hidx : cl.length - 1 - 1 = cl.length - 2 := by omega
    rw [hidx]
    have hlast := hattn (cl.length - 2) (by omega)
    have h1 : cl.length - 1 - (cl.length - 2) = 1 := by omega
    rw [h1] at hlast
    simp only [show decide (1 < 1) = false from rfl, Bool.false_and] at hlast
    rw [← Option.not_isSome_iff_eq_none, hlast]
    simp
  · intro k hk
    rw [hulen] at hk
    have hk2 : k < cl.length - 1 := by omega
    have h2 : 1 < cl.length - 1 - k := by omega
    rw [hattn k hk2, hnn]
    simp [h2]

/-- Claim C10 witness: the three-level `UNET` with dict gate-attention
arguments. -/
theorem claimC10_witness :
    (AttnArgs.dict
      { encChannels := 0, skipChannels := 0, spatialInterChannels := 0 }).isNull = false ∧
    UNET.init 3 [4, 8, 16] none none 2 false 0 0
      (AttnArgs.dict { encChannels := 0, skipChannels := 0, spatialInterChannels := 0 })
      AttnArgs.null none false = Except.ok exUNETAttn ∧
    exUNETAttn.upSamplers.length = 2 ∧
    (exUNETAttn.upSamplers.getD 1 default).attention = none ∧
    (exUNETAttn.upSamplers.getD 0 default).attention.isSome = true := by
  have h := claimC10 3 [4, 8, 16] none none 2 false 0 0
    (AttnArgs.dict { encChannels := 0, skipChannels := 0, spatialInterChannels := 0 })
    AttnArgs.null none false rfl exUNETAttn rfl
  exact ⟨rfl, rfl, h.1.trans rfl, h.2.2.1, h.2.2.2 0 (by decide)⟩

/-- With at least three channels the convolution list continues, after the
first block, with the block built at loop index `1` (the one that receives
the constructor's stride). -/
theorem ConvSet.build_convList_tail {cs : List Nat} (ks ps : List Nat) (dims stride : Nat)
    (ut : Bool) (tec : Nat) (aa : AttnArgs) (ur : Bool) (caf : Option Nat)
    (h : 3 ≤ cs.length) :
    ∃ rest, (ConvSet.build cs ks ps dims stride ut tec aa ur caf).convList.tail =
      mkConvBlock dims (cs.getD 1 0) (cs.getD 2 0) (ks.getD 1 0) (ps.getD 1 0) stride caf ::
        rest := by
  rw [ConvSet.build_convList]
  obtain ⟨m, hm⟩ : ∃ m, cs.length - 1 = m + 2 := ⟨cs.length - 3, by omega⟩
  rw [hm, List.range_succ_eq_map, List.range_succ_eq_map]
  refine ⟨List.map (fun i =>
      mkConvBlock dims (cs.getD i 0) (cs.getD (i + 1) 0) (ks.getD i 0) (ps.getD i 0)
        (if i = 1 then stride else 1) caf)
      (List.map Nat.succ (List.map Nat.succ (List.range m))), ?_⟩
  simp [List.map_cons, List.tail_cons]

/-- If the output of a successful `ConvSet.forward` has a well-defined
channel dimension, so does the output of its convolution chain. -/
theorem ConvSet.forward_ok_channels {c : ConvSet} {b : Tensor} {te : Option Tensor} {x : Tensor}
    (hfwd : c.forward b te = Except.ok x) (hx : x.channels ≠ none) :
    ∃ ch, c.convChain b te = Except.ok ch ∧ ch.channels ≠ none := by
  unfold ConvSet.forward at hfwd
  obtain ⟨ch, hch, hres⟩ := exceptBind_ok.mp hfwd
  refine ⟨ch, hch, ?_⟩
  intro hnone
  apply hx
  have hpre : (match c.attention with
      | some a => Tensor.attnSelf a ch
      | none => ch).channels = ch.channels := by
    cases c.attention <;> rfl
  cases hnr : c.needRes with
  | false =>
    rw [hnr] at hres
    simp only [Except.ok.injEq] at hres
    rw [← hres, hpre]
    exact hnone
  | true =>
    rw [hnr] at hres
    cases hrm : c.resMatch with
    | none =>
      rw [hrm] at hres
      cases hres
    | some rm =>
      rw [hrm] at hres
      simp only [Except.ok.injEq] at hres
      rw [← hres]
      simp only [Tensor.channels]
      rw [hpre, hnone]

/-- Channel analysis of the time-conditioned chain: if the chain output of a
`use_time=True` `ConvSet` has a well-defined channel dimension, then the
broadcast addition of the `channel_sequence[2]`-channel embedding onto the
`channel_sequence[1]`-channel first-convolution output, followed by the
second convolution (which expects `channel_sequence[1]` input channels),
forces `channel_sequence[1] = channel_sequence[2]` or
`channel_sequence[2] = 1`. -/
theorem ConvSet.chain_time_channels {cs ks ps : List Nat} {dims stride tec : Nat}
    {aa : AttnArgs} {ur : Bool} {caf : Option Nat} {b te ch : Tensor}
    (h1 : 3 ≤ cs.length)
    (hch : (ConvSet.build cs ks ps dims stride true tec aa ur caf).convChain b (some te) =
      Except.ok ch)
    (hne : ch.channels ≠ none) :
    cs.getD 1 0 = cs.getD 2 0 ∨ cs.getD 2 0 = 1 := by
  rw [ConvSet.convChain_time rfl rfl,
    ConvSet.build_convList_head ks ps dims stride true tec aa ur caf h1] at hch
  simp only [Except.ok.injEq] at hch
  obtain ⟨rest, hrest⟩ := ConvSet.build_convList_tail ks ps dims stride true tec aa ur caf h1
  rw [← hch, foldl_convBlockApp_channels, hrest, List.foldl_cons] at hne
  have hbase := foldl_bind_ne_none rest _ hne
  cases hb : (Tensor.addTime { inFeatures := tec, outFeatures := cs.getD 2 0 } te
      (Tensor.convBlockApp (mkConvBlock dims (cs.getD 0 0) (cs.getD 1 0) (ks.getD 0 0)
        (ps.getD 0 0) 1 caf) b)).channels with
  | none =>
    rw [hb] at hbase
    simp at hbase
  | some v =>
    rw [hb] at hbase
    have hv : v = cs.getD 1 0 := by
      by_contra hvne
      apply hbase
      have hnone : blockOutChannels (mkConvBlock dims (cs.getD 1 0) (cs.getD 2 0)
          (ks.getD 1 0) (ps.getD 1 0) stride caf) v = none := by
        unfold blockOutChannels
        rw [mkConvBlock_conv]
        exact if_neg (fun hc => hvne hc.1)
      exact hnone
    simp only [Tensor.channels] at hb
    by_cases hte2 : te.channels = some tec
    · rw [if_pos (by simpa using hte2)] at hb
      cases hcb : b.channels with
      | none =>
        rw [hcb] at hb
        simp at hb
      | some u =>
        rw [hcb] at hb
        rw [Option.some_bind] at hb
        unfold blockOutChannels at hb
        rw [mkConvBlock_conv_inCh, mkConvBlock_conv_outCh, mkConvBlock_bn_features] at hb
        split_ifs at hb with hcond
        · rw [Option.some_bind] at hb
          have hb2 : broadcastAdd (cs.getD 1 0) (cs.getD 2 0) = some v := hb
          unfold broadcastAdd at hb2
          split_ifs at hb2 with hab ha1 hb1
          · exact Or.inl hab
          · injection hb2 with hh
            exact Or.inr (hh.trans (hv.trans ha1))
          · exact Or.inr hb1
        · simp at hb
    · rw [if_neg (by simpa using hte2)] at hb
      cases hb

/-- Claim C8 counterexample: with `channel_sequence = [1, 2, 1]` (so
`channel_sequence[1] = 2 ≠ 1 = channel_sequence[2]`) the constructor
succeeds and `forward` with a time embedding is well-defined on channels —
the 1-feature embedding broadcasts over the 2-channel first-convolution
output — refuting "well-defined only under the precondition
`channel_sequence[1] == channel_sequence[2]`". -/
theorem claimC8_counterexample :
    (ConvSet.init [1, 2, 1] [3, 3] [1, 1] 2 1 true 4 AttnArgs.null false none).isOk = true ∧
    exC8Conv.forward (Tensor.input 1) (some (Tensor.input 4)) = Except.ok exC8Out ∧
    (Tensor.input 1).channels = some ([1, 2, 1].getD 0 0) ∧
    (Tensor.input 4).channels = some 4 ∧
    exC8Out.channels = some 1 ∧
    ¬ ([1, 2, 1].getD 1 0 = [1, 2, 1].getD 2 0) :=
  ⟨rfl, rfl, rfl, rfl, rfl, by decide⟩

/-- Claim C8 (amended): with `use_time=True` the embedding adjuster projects
the time embedding to `channel_sequence[2]` features while the first
convolution outputs `channel_sequence[1]` channels; a channel-well-defined
`forward` with a time embedding therefore forces
`channel_sequence[1] = channel_sequence[2]` OR `channel_sequence[2] = 1`
(numpy-style broadcasting lets a 1-feature embedding broadcast); the
constructor checks neither — it succeeds on `[1, 2, 3]`, where they
differ. -/
theorem claimC8_amended (cs ks ps : List Nat) (dims stride tec : Nat) (aa : AttnArgs)
    (ur : Bool) (caf : Option Nat) :
    ∀ c, ConvSet.init cs ks ps dims stride true tec aa ur caf = Except.ok c →
      (∃ ea, c.embedAdjuster = some ea ∧ ea.inFeatures = tec ∧
        ea.outFeatures = cs.getD 2 0) ∧
      ((c.convList.getD 0 default).conv.outCh = cs.getD 1 0) ∧
      (∀ b te x, c.forward b (some te) = Except.ok x → x.channels ≠ none →
        cs.getD 1 0 = cs.getD 2 0 ∨ cs.getD 2 0 = 1) ∧
      (∃ c2, ConvSet.init [1, 2, 3] [3, 3] [1, 1] dims stride true tec aa ur caf =
        Except.ok c2) := by
  intro c hc
  obtain ⟨h1, _, _, _, _, hc⟩ := ConvSet.init_ok_iff.mp hc
  subst hc
  refine ⟨⟨_, rfl, rfl, rfl⟩, ?_, ?_,
    ⟨_, ConvSet.init_len3 1 2 3 dims stride true tec aa ur caf⟩⟩
  · rw [ConvSet.build_convList, getD_map_range _ _ _ _ (by omega), mkConvBlock_conv_outCh]
  · intro b te x hfwd hchan
    obtain ⟨ch, hch, hne⟩ := ConvSet.forward_ok_channels hfwd hchan
    exact ConvSet.chain_time_channels h1 hch hne

/-- Claim C8 (amended) witness: the `[1, 2, 1]` instance. -/
theorem claimC8_amended_witness :
    ConvSet.init [1, 2, 1] [3, 3] [1, 1] 2 1 true 4 AttnArgs.null false none =
      Except.ok exC8Conv ∧
    exC8Conv.embedAdjuster = some { inFeatures := 4, outFeatures := 1 } ∧
    (exC8Conv.convList.getD 0 default).conv.outCh = 2 ∧
    exC8Conv.forward (Tensor.input 1) (some (Tensor.input 4)) = Except.ok exC8Out ∧
    exC8Out.channels = some 1 ∧
    ([1, 2, 1].getD 1 0 = [1, 2, 1].getD 2 0 ∨ [1, 2, 1].getD 2 0 = 1) := by
  have h := claimC8_amended [1, 2, 1] [3, 3] [1, 1] 2 1 4 AttnArgs.null false none exC8Conv rfl
  have hdisj := h.2.2.1 (Tensor.input 1) (Tensor.input 4) exC8Out rfl (by decide)
  exact ⟨rfl, rfl, h.2.1.trans rfl, rfl, rfl, hdisj⟩
